import Mathlib

/-!
# The solver chain builder of `lib/Basic/ConstructSolverChain.cpp`

A shallow embedding of `getSolverPath` and `klee::constructSolverChain`, followed by
theorems about the chain of decorators the builder returns, the file paths it gives to
the logging decorators and the diagnostics it prints.

Conventions of the embedding.

* A value of `Solver` is a solver object.  The factories (`createKQueryLoggingSolver`,
  `createValidatingSolver`, ...) are declared in headers outside this file, so a
  decorator is represented by the call that created it: the constructor of `Solver`
  carrying the factory's name records the arguments of the call.
* A `Solver *` that may be null is an `Option Solver`; a `const ConstraintLogConfig *`
  is an `Option Z3ConstraintLogConfig`; a `const char *` is an `Option String`.
* The command-line globals read by the builder are the fields of `CommandLine`.
* `getConstraintLog` and `createCoreSolver` are implemented elsewhere; they are the
  fields of `Env`, and every theorem holds for all of their implementations.
* Output written with `klee_message` and to `llvm::errs()` is accumulated, in order, in
  a list of `Diag`.  A notice takes its path through a `%s` of the path's `c_str ()`, so
  its text holds the path up to the first NUL character (`c_str`); the loggers themselves
  are created with the whole path.  Appending a null `const char *` to a `std::string` has no defined
  behaviour; the embedding stops there with no result (`none`), keeping the
  diagnostics already printed.
-/

namespace klee

/-! ## Data model -/

/-- Modelled from the spec: the enumeration `CoreSolverType` of `klee/CommandLine.h`,
which is not part of the sources at hand.  The builder names two of its enumerators,
`Z3_SOLVER` (the backend the dialect configuration targets) and `NO_SOLVER` (no
alternate backend designated); every other backend is an `OTHER_SOLVER`. -/
inductive CoreSolverType where
  | Z3_SOLVER
  | NO_SOLVER
  | OTHER_SOLVER (tag : Nat)
  deriving DecidableEq, Repr

/-- Modelled from the spec: the enumeration `QueryLoggingSolverType` of
`klee/CommandLine.h`, which is not part of the sources at hand; these are the nine
enumerators the builder tests. -/
inductive QueryLoggingSolverType where
  | ALL_KQUERY
  | ALL_SMTLIB
  | ALL_CORE_SOLVER_LANG
  | SOLVER_KQUERY
  | SOLVER_SMTLIB
  | SOLVER_CORE_SOLVER_LANG
  | SOLVER_CORE_SOLVER_LANG_NO_USE_FP_TO_IEEE_BV
  | SOLVER_CORE_SOLVER_LANG_AA
  | SOLVER_CORE_SOLVER_LANG_AA_NO_USE_FP_TO_IEEE_BV
  deriving DecidableEq, Repr

/-- Modelled from the spec: `optionIsSet` of `klee/CommandLine.h`, which is not part of
the sources at hand: a toggle is set when it occurs in the list of given options. -/
def optionIsSet (list : List QueryLoggingSolverType) (option : QueryLoggingSolverType) : Bool :=
  list.contains option

/-- Modelled from the spec: the dialect configuration `Z3ConstraintLogConfig` of
`klee/ConstraintLogConfig.h`, which is not part of the sources at hand; these are the two
fields the builder assigns. -/
structure Z3ConstraintLogConfig where
  ackermannizeArrays : Bool
  useToIEEEBVFunction : Bool
  deriving DecidableEq, Repr

/-- The command-line globals read by `constructSolverChain`. -/
structure CommandLine where
  queryLoggingOptions : List QueryLoggingSolverType
  MinQueryTimeToLog : Int
  CoreSolverToUse : CoreSolverType
  UseAssignmentValidatingSolver : Bool
  UseFastCexSolver : Bool
  UseCexCache : Bool
  UseCache : Bool
  UseIndependentSolver : Bool
  DebugValidateSolver : Bool
  DebugCrossCheckCoreSolverWith : CoreSolverType

/-- Modelled from the spec: expressions of `klee/Expr.h`, which is not part of the sources
at hand, as far as the dummy query needs them: a constant of a given value and bit width
(`ConstantExpr::alloc (value, width)`). -/
inductive Expr where
  | ConstantExpr (value : Nat) (width : Nat)
  deriving DecidableEq, Repr

/-- Modelled from the spec: `Expr::Bool` of `klee/Expr.h`, which is not part of the
sources at hand: the width of a boolean, one bit. -/
def Expr.Bool : Nat := 1

/-- Modelled from the spec: the `ConstraintManager` of `klee/Constraints.h`, which is not
part of the sources at hand; a default-constructed one holds no constraint. -/
structure ConstraintManager where
  constraints : List Expr := []
  deriving DecidableEq, Repr

/-- Modelled from the spec: the `Query` of `klee/Solver.h`, which is not part of the
sources at hand: a constraint set and the expression to evaluate. -/
structure Query where
  constraints : ConstraintManager
  expr : Expr
  deriving DecidableEq, Repr

/-- Modelled from the spec: solver objects and the decorator factories of `klee/Solver.h`
and `klee/Common.h`, which are not part of the sources at hand.  `core` is a solver
created outside the builder, named by a handle; every other constructor is the decorator
made by the factory of that name, around the solver `s` it owns, and keeps the arguments
of the call. -/
inductive Solver where
  | core (handle : Nat)
  | createKQueryLoggingSolver (s : Solver) (path : String) (minQueryTimeToLog : Int)
  | createSMTLIBLoggingSolver (s : Solver) (path : String) (minQueryTimeToLog : Int)
  | createCoreSolverLangLoggingSolver (s : Solver) (path : String)
      (minQueryTimeToLog : Int) (clc : Option Z3ConstraintLogConfig)
  | createAssignmentValidatingSolver (s : Solver)
  | createFastCexSolver (s : Solver)
  | createCexCachingSolver (s : Solver)
  | createCachingSolver (s : Solver)
  | createIndependentSolver (s : Solver)
  | createValidatingSolver (s : Solver) (oracle : Option Solver)

/-- The collaborators implemented outside this file. -/
structure Env where
  /-- What `solver->getConstraintLog (query, &fileExtension, clc)` yields: the rendered
  text and the extension (absent when the pointer is left null). -/
  getConstraintLog : Solver → Query → Option Z3ConstraintLogConfig → String × Option String
  /-- What `createCoreSolver (type)` yields: a solver, or a null pointer. -/
  createCoreSolver : CoreSolverType → Option Solver

/-- One line of diagnostic output. -/
inductive Diag where
  | message (text : String)
  | errs (text : String)
  deriving DecidableEq, Repr

/-! ## The builder's effects -/

/-- A computation that prints diagnostics and may stop without a result. -/
def Build (α : Type) : Type := List Diag → Option α × List Diag

/-- Runs a computation after the diagnostics `out`. -/
def Build.run {α : Type} (m : Build α) (out : List Diag) : Option α × List Diag := m out

instance : Monad Build where
  pure a := fun out => (some a, out)
  bind m f := fun out =>
    match m out with
    | (some a, out1) => f a out1
    | (none, out1) => (none, out1)

/-- What a `%s` of a format prints for `s.c_str ()`: the characters of the string `s`
that come before its first NUL character, all of `s` when it holds none. -/
def c_str (s : String) : String :=
  String.mk (s.data.takeWhile (fun ch => ch != Char.ofNat 0))

/-- Modelled from the spec: `klee_message` of `klee/Internal/Support/ErrorHandling.h`,
which is not part of the sources at hand: one line on the diagnostic channel. -/
def klee_message (text : String) : Build Unit := fun out => (some (), out ++ [Diag.message text])

/-- Modelled from the spec: writing to `llvm::errs()`: one warning line on the diagnostic
channel. -/
def errs (text : String) : Build Unit := fun out => (some (), out ++ [Diag.errs text])

/-- A step with no defined behaviour when its argument is absent. -/
def defined {α : Type} : Option α → Build α
  | some a => pure a
  | none => fun out => (none, out)

/-! ## `getSolverPath` -/

/-- The dummy query of `getSolverPath`: `Query q (cm, ConstantExpr::alloc (0, Expr::Bool))`
with a default-constructed `cm`. -/
def dummyQuery : Query := ⟨{}, Expr.ConstantExpr 0 Expr.Bool⟩

/-- The function `getSolverPath`: asks the solver for the log of the dummy query, frees
the text, and appends to `base` the extension prefix (when given) and the extension.
There is no result when the solver leaves the extension null. -/
def getSolverPath (env : Env) (solver : Solver) (base : String)
    (clc : Option Z3ConstraintLogConfig) (extensionPrefix : Option String) : Option String :=
  let fileExtension : Option String := (env.getConstraintLog solver dummyQuery clc).2
  let filePath := base
  let filePath := match extensionPrefix with
    | some p => filePath ++ p
    | none => filePath
  match fileExtension with
  | some ext => some (filePath ++ ext)
  | none => none

/-! ## `constructSolverChain` -/

open Solver QueryLoggingSolverType CoreSolverType

/-- The function `klee::constructSolverChain`. -/
def constructSolverChain (cl : CommandLine) (env : Env) (coreSolver : Solver)
    (querySMT2LogPath baseSolverQuerySMT2LogPath queryKQueryLogPath
      baseSolverQueryKQueryLogPath queryCoreSolverLangLogPath
      baseCoreSolverLangLogPath : String) : Build Solver := do
  let solver := coreSolver
  let solver ←
    (if optionIsSet cl.queryLoggingOptions SOLVER_KQUERY then do
      let solver := createKQueryLoggingSolver solver baseSolverQueryKQueryLogPath
        cl.MinQueryTimeToLog
      klee_message ("Logging queries that reach solver in .kquery format to "
        ++ c_str baseSolverQueryKQueryLogPath ++ "\n")
      pure solver
    else pure solver)
  let solver ←
    (if optionIsSet cl.queryLoggingOptions SOLVER_SMTLIB then do
      let solver := createSMTLIBLoggingSolver solver baseSolverQuerySMT2LogPath
        cl.MinQueryTimeToLog
      klee_message ("Logging queries that reach solver in .smt2 format to "
        ++ c_str baseSolverQuerySMT2LogPath ++ "\n")
      pure solver
    else pure solver)
  let solver ←
    (if optionIsSet cl.queryLoggingOptions SOLVER_CORE_SOLVER_LANG then do
      let z3clc : Z3ConstraintLogConfig :=
        { ackermannizeArrays := false, useToIEEEBVFunction := true }
      let clc := if cl.CoreSolverToUse = Z3_SOLVER then some z3clc else none
      let filePath ← defined (getSolverPath env solver baseCoreSolverLangLogPath clc none)
      let solver := createCoreSolverLangLoggingSolver solver filePath
        cl.MinQueryTimeToLog clc
      klee_message ("Logging queries that reach solver in core solver's language to "
        ++ c_str filePath ++ "\n")
      pure solver
    else pure solver)
  let solver ←
    (if optionIsSet cl.queryLoggingOptions SOLVER_CORE_SOLVER_LANG_NO_USE_FP_TO_IEEE_BV then do
      let z3clc : Z3ConstraintLogConfig :=
        { ackermannizeArrays := false, useToIEEEBVFunction := false }
      let clc := if cl.CoreSolverToUse = Z3_SOLVER then some z3clc else none
      let filePath ← defined (getSolverPath env solver baseCoreSolverLangLogPath clc
        (some "no_fp_to_ieee_bv."))
      let solver := createCoreSolverLangLoggingSolver solver filePath
        cl.MinQueryTimeToLog clc
      klee_message
        ("Logging queries that reach solver avoiding use of fp.to_ieee_bv in core solver's language to "
          ++ c_str filePath ++ "\n")
      pure solver
    else pure solver)
  let solver ←
    (if optionIsSet cl.queryLoggingOptions SOLVER_CORE_SOLVER_LANG_AA then do
      let z3clc : Z3ConstraintLogConfig :=
        { ackermannizeArrays := true, useToIEEEBVFunction := true }
      let clc ←
        (if cl.CoreSolverToUse = Z3_SOLVER then pure (some z3clc)
        else do
          errs "Core solver is not Z3, cannot ackermannize arrays\n"
          pure none)
      let filePath ← defined (getSolverPath env solver baseCoreSolverLangLogPath clc
        (some "aa."))
      let solver := createCoreSolverLangLoggingSolver solver filePath
        cl.MinQueryTimeToLog clc
      klee_message
        ("Logging all (might be ackermannized) queries in core solver's language to "
          ++ c_str filePath ++ "\n")
      pure solver
    else pure solver)
  let solver ←
    (if optionIsSet cl.queryLoggingOptions
        SOLVER_CORE_SOLVER_LANG_AA_NO_USE_FP_TO_IEEE_BV then do
      let z3clc : Z3ConstraintLogConfig :=
        { ackermannizeArrays := true, useToIEEEBVFunction := false }
      let clc ←
        (if cl.CoreSolverToUse = Z3_SOLVER then pure (some z3clc)
        else do
          errs "Core solver is not Z3, cannot ackermannize arrays\n"
          pure none)
      let filePath ← defined (getSolverPath env solver baseCoreSolverLangLogPath clc
        (some "aa.no_fp_to_ieee_bv."))
      let solver := createCoreSolverLangLoggingSolver solver filePath
        cl.MinQueryTimeToLog clc
      klee_message
        ("Logging all (might be ackermannized) queries avoiding use of fp.to_ieee_bv in core solver's language to "
          ++ c_str filePath ++ "\n")
      pure solver
    else pure solver)
  let solver ←
    (if cl.UseAssignmentValidatingSolver then pure (createAssignmentValidatingSolver solver)
    else pure solver)
  let solver ←
    (if cl.UseFastCexSolver then pure (createFastCexSolver solver) else pure solver)
  let solver ←
    (if cl.UseCexCache then pure (createCexCachingSolver solver) else pure solver)
  let solver ←
    (if cl.UseCache then pure (createCachingSolver solver) else pure solver)
  let solver ←
    (if cl.UseIndependentSolver then pure (createIndependentSolver solver) else pure solver)
  let solver ←
    (if cl.DebugValidateSolver then pure (createValidatingSolver solver (some coreSolver))
    else pure solver)
  let solver ←
    (if optionIsSet cl.queryLoggingOptions ALL_KQUERY then do
      let solver := createKQueryLoggingSolver solver queryKQueryLogPath cl.MinQueryTimeToLog
      klee_message ("Logging all queries in .kquery format to "
        ++ c_str queryKQueryLogPath ++ "\n")
      pure solver
    else pure solver)
  let solver ←
    (if optionIsSet cl.queryLoggingOptions ALL_SMTLIB then do
      let solver := createSMTLIBLoggingSolver solver querySMT2LogPath cl.MinQueryTimeToLog
      klee_message ("Logging all queries in .smt2 format to " ++ c_str querySMT2LogPath ++ "\n")
      pure solver
    else pure solver)
  let solver ←
    (if optionIsSet cl.queryLoggingOptions ALL_CORE_SOLVER_LANG then do
      let z3clc : Z3ConstraintLogConfig :=
        { useToIEEEBVFunction := true, ackermannizeArrays := false }
      let clc := if cl.CoreSolverToUse = Z3_SOLVER then some z3clc else none
      let filePath ← defined (getSolverPath env solver queryCoreSolverLangLogPath clc none)
      let solver := createCoreSolverLangLoggingSolver solver filePath
        cl.MinQueryTimeToLog clc
      klee_message ("Logging all queries in core solver's language to " ++ c_str filePath ++ "\n")
      pure solver
    else pure solver)
  let solver ←
    (if cl.DebugCrossCheckCoreSolverWith ≠ NO_SOLVER then do
      let oracleSolver := env.createCoreSolver cl.DebugCrossCheckCoreSolverWith
      pure (createValidatingSolver solver oracleSolver)
    else pure solver)
  return solver

/-! ## Reading a chain -/

/-- A decorator without the solver it wraps: the factory called and its other arguments. -/
inductive Decorator where
  | KQueryLogging (path : String) (minQueryTimeToLog : Int)
  | SMTLIBLogging (path : String) (minQueryTimeToLog : Int)
  | CoreSolverLangLogging (path : String) (minQueryTimeToLog : Int)
      (clc : Option Z3ConstraintLogConfig)
  | AssignmentValidating
  | FastCex
  | CexCaching
  | Caching
  | Independent
  | Validating (oracle : Option Solver)

/-- The solver obtained by putting the decorator around `s`. -/
def Decorator.wrap : Decorator → Solver → Solver
  | .KQueryLogging p t, s => createKQueryLoggingSolver s p t
  | .SMTLIBLogging p t, s => createSMTLIBLoggingSolver s p t
  | .CoreSolverLangLogging p t clc, s => createCoreSolverLangLoggingSolver s p t clc
  | .AssignmentValidating, s => createAssignmentValidatingSolver s
  | .FastCex, s => createFastCexSolver s
  | .CexCaching, s => createCexCachingSolver s
  | .Caching, s => createCachingSolver s
  | .Independent, s => createIndependentSolver s
  | .Validating oracle, s => createValidatingSolver s oracle

/-- The chain with `base` innermost and the decorators of `ds` around it, the first of
`ds` next to `base` and the last outermost. -/
def wrapAll (base : Solver) (ds : List Decorator) : Solver :=
  ds.foldl (fun s d => d.wrap s) base

/-- The file a logging decorator writes to; nothing for the other decorators. -/
def Decorator.logPath : Decorator → Option String
  | .KQueryLogging p _ => some p
  | .SMTLIBLogging p _ => some p
  | .CoreSolverLangLogging p _ _ => some p
  | _ => none

/-- The text of the notices among the diagnostics. -/
def notices : List Diag → List String
  | [] => []
  | Diag.message t :: out => t :: notices out
  | Diag.errs _ :: out => notices out

/-- The text of the warnings among the diagnostics. -/
def warnings : List Diag → List String
  | [] => []
  | Diag.message _ :: out => warnings out
  | Diag.errs t :: out => t :: warnings out

/-! ## One call of the builder -/

/-- The inputs of one call of `constructSolverChain`. -/
structure Call where
  cl : CommandLine
  env : Env
  coreSolver : Solver
  querySMT2LogPath : String
  baseSolverQuerySMT2LogPath : String
  queryKQueryLogPath : String
  baseSolverQueryKQueryLogPath : String
  queryCoreSolverLangLogPath : String
  baseCoreSolverLangLogPath : String

/-- The outcome of the call: the solver returned, if any, and the diagnostics printed. -/
def Call.result (c : Call) : Option Solver × List Diag :=
  (constructSolverChain c.cl c.env c.coreSolver c.querySMT2LogPath
    c.baseSolverQuerySMT2LogPath c.queryKQueryLogPath c.baseSolverQueryKQueryLogPath
    c.queryCoreSolverLangLogPath c.baseCoreSolverLangLogPath).run []

/-- The sixteen decorators the builder can insert. -/
inductive Entry where
  | baseKQueryLogger
  | baseSMTLIBLogger
  | baseNativeLogger
  | baseNativeLoggerNoFpToIeeeBv
  | baseNativeLoggerAA
  | baseNativeLoggerAANoFpToIeeeBv
  | assignmentValidating
  | fastCex
  | cexCaching
  | caching
  | independence
  | debugValidating
  | fullKQueryLogger
  | fullSMTLIBLogger
  | fullNativeLogger
  | crossCheckValidating
  deriving DecidableEq, Repr

/-- The fixed list of decorators, from the one next to the base solver outwards. -/
def fixedOrder : List Entry :=
  [.baseKQueryLogger, .baseSMTLIBLogger, .baseNativeLogger, .baseNativeLoggerNoFpToIeeeBv,
   .baseNativeLoggerAA, .baseNativeLoggerAANoFpToIeeeBv, .assignmentValidating, .fastCex,
   .cexCaching, .caching, .independence, .debugValidating, .fullKQueryLogger,
   .fullSMTLIBLogger, .fullNativeLogger, .crossCheckValidating]

/-- The toggle of each entry. -/
def Entry.enabled (cl : CommandLine) : Entry → Bool
  | .baseKQueryLogger => optionIsSet cl.queryLoggingOptions SOLVER_KQUERY
  | .baseSMTLIBLogger => optionIsSet cl.queryLoggingOptions SOLVER_SMTLIB
  | .baseNativeLogger => optionIsSet cl.queryLoggingOptions SOLVER_CORE_SOLVER_LANG
  | .baseNativeLoggerNoFpToIeeeBv =>
      optionIsSet cl.queryLoggingOptions SOLVER_CORE_SOLVER_LANG_NO_USE_FP_TO_IEEE_BV
  | .baseNativeLoggerAA => optionIsSet cl.queryLoggingOptions SOLVER_CORE_SOLVER_LANG_AA
  | .baseNativeLoggerAANoFpToIeeeBv =>
      optionIsSet cl.queryLoggingOptions SOLVER_CORE_SOLVER_LANG_AA_NO_USE_FP_TO_IEEE_BV
  | .assignmentValidating => cl.UseAssignmentValidatingSolver
  | .fastCex => cl.UseFastCexSolver
  | .cexCaching => cl.UseCexCache
  | .caching => cl.UseCache
  | .independence => cl.UseIndependentSolver
  | .debugValidating => cl.DebugValidateSolver
  | .fullKQueryLogger => optionIsSet cl.queryLoggingOptions ALL_KQUERY
  | .fullSMTLIBLogger => optionIsSet cl.queryLoggingOptions ALL_SMTLIB
  | .fullNativeLogger => optionIsSet cl.queryLoggingOptions ALL_CORE_SOLVER_LANG
  | .crossCheckValidating => decide (cl.DebugCrossCheckCoreSolverWith ≠ NO_SOLVER)

/-- The entries that are logging decorators. -/
def Entry.isLogger : Entry → Bool
  | .baseKQueryLogger | .baseSMTLIBLogger | .baseNativeLogger | .baseNativeLoggerNoFpToIeeeBv
  | .baseNativeLoggerAA | .baseNativeLoggerAANoFpToIeeeBv | .fullKQueryLogger
  | .fullSMTLIBLogger | .fullNativeLogger => true
  | _ => false

/-- The dialect configuration handed on for the Z3 configuration `z3clc`: `z3clc` itself
when the core solver is Z3, and none otherwise. -/
def clcFor (cl : CommandLine) (z3clc : Z3ConstraintLogConfig) : Option Z3ConstraintLogConfig :=
  if cl.CoreSolverToUse = Z3_SOLVER then some z3clc else none

/-- Every solver reports an extension for the dummy query, whatever the configuration. -/
def Env.ReportsExtension (env : Env) : Prop :=
  ∀ (s : Solver) (clc : Option Z3ConstraintLogConfig),
    ∃ ext, (env.getConstraintLog s dummyQuery clc).2 = some ext

/-! ## What is said of each entry -/

/-- What the fixed list says of each entry: the decorator the entry stands for.  A
native-dialect logger is known by the path input and extension prefix its file path
starts with and by its dialect configuration. -/
def Entry.Describes (c : Call) : Entry → Decorator → Prop
  | .baseKQueryLogger, d =>
      d = .KQueryLogging c.baseSolverQueryKQueryLogPath c.cl.MinQueryTimeToLog
  | .baseSMTLIBLogger, d =>
      d = .SMTLIBLogging c.baseSolverQuerySMT2LogPath c.cl.MinQueryTimeToLog
  | .baseNativeLogger, d =>
      ∃ ext, d = .CoreSolverLangLogging (c.baseCoreSolverLangLogPath ++ ext)
        c.cl.MinQueryTimeToLog (clcFor c.cl ⟨false, true⟩)
  | .baseNativeLoggerNoFpToIeeeBv, d =>
      ∃ ext, d = .CoreSolverLangLogging (c.baseCoreSolverLangLogPath ++ "no_fp_to_ieee_bv." ++ ext)
        c.cl.MinQueryTimeToLog (clcFor c.cl ⟨false, false⟩)
  | .baseNativeLoggerAA, d =>
      ∃ ext, d = .CoreSolverLangLogging (c.baseCoreSolverLangLogPath ++ "aa." ++ ext)
        c.cl.MinQueryTimeToLog (clcFor c.cl ⟨true, true⟩)
  | .baseNativeLoggerAANoFpToIeeeBv, d =>
      ∃ ext, d = .CoreSolverLangLogging
        (c.baseCoreSolverLangLogPath ++ "aa.no_fp_to_ieee_bv." ++ ext)
        c.cl.MinQueryTimeToLog (clcFor c.cl ⟨true, false⟩)
  | .assignmentValidating, d => d = .AssignmentValidating
  | .fastCex, d => d = .FastCex
  | .cexCaching, d => d = .CexCaching
  | .caching, d => d = .Caching
  | .independence, d => d = .Independent
  | .debugValidating, d => d = .Validating (some c.coreSolver)
  | .fullKQueryLogger, d => d = .KQueryLogging c.queryKQueryLogPath c.cl.MinQueryTimeToLog
  | .fullSMTLIBLogger, d => d = .SMTLIBLogging c.querySMT2LogPath c.cl.MinQueryTimeToLog
  | .fullNativeLogger, d =>
      ∃ ext, d = .CoreSolverLangLogging (c.queryCoreSolverLangLogPath ++ ext)
        c.cl.MinQueryTimeToLog (clcFor c.cl ⟨false, true⟩)
  | .crossCheckValidating, d =>
      d = .Validating (c.env.createCoreSolver c.cl.DebugCrossCheckCoreSolverWith)

/-- The nine logging toggles. -/
def loggingToggles : List QueryLoggingSolverType :=
  [SOLVER_KQUERY, SOLVER_SMTLIB, SOLVER_CORE_SOLVER_LANG,
   SOLVER_CORE_SOLVER_LANG_NO_USE_FP_TO_IEEE_BV, SOLVER_CORE_SOLVER_LANG_AA,
   SOLVER_CORE_SOLVER_LANG_AA_NO_USE_FP_TO_IEEE_BV, ALL_KQUERY, ALL_SMTLIB,
   ALL_CORE_SOLVER_LANG]

/-- The path is a result of `getSolverPath` for the path input `base`. -/
def ProbedOn (env : Env) (base : String) (path : String) : Prop :=
  ∃ (solver : Solver) (clc : Option Z3ConstraintLogConfig) (extensionPrefix : Option String),
    getSolverPath env solver base clc extensionPrefix = some path

/-- The file each entry's decorator is to write to: the path input itself for the
fixed-dialect loggers, a result of `getSolverPath` on the native-dialect path input for
the native-dialect loggers, and no file for the decorators that are no loggers. -/
def Entry.LogsTo (c : Call) : Entry → Decorator → Prop
  | .baseKQueryLogger, d => d.logPath = some c.baseSolverQueryKQueryLogPath
  | .baseSMTLIBLogger, d => d.logPath = some c.baseSolverQuerySMT2LogPath
  | .baseNativeLogger, d =>
      ∃ p, d.logPath = some p ∧ ProbedOn c.env c.baseCoreSolverLangLogPath p
  | .baseNativeLoggerNoFpToIeeeBv, d =>
      ∃ p, d.logPath = some p ∧ ProbedOn c.env c.baseCoreSolverLangLogPath p
  | .baseNativeLoggerAA, d =>
      ∃ p, d.logPath = some p ∧ ProbedOn c.env c.baseCoreSolverLangLogPath p
  | .baseNativeLoggerAANoFpToIeeeBv, d =>
      ∃ p, d.logPath = some p ∧ ProbedOn c.env c.baseCoreSolverLangLogPath p
  | .fullKQueryLogger, d => d.logPath = some c.queryKQueryLogPath
  | .fullSMTLIBLogger, d => d.logPath = some c.querySMT2LogPath
  | .fullNativeLogger, d =>
      ∃ p, d.logPath = some p ∧ ProbedOn c.env c.queryCoreSolverLangLogPath p
  | _, d => d.logPath = none

/-- The two array-ackermannization toggles. -/
def ackermannizeToggles : List QueryLoggingSolverType :=
  [SOLVER_CORE_SOLVER_LANG_AA, SOLVER_CORE_SOLVER_LANG_AA_NO_USE_FP_TO_IEEE_BV]

/-- The warning line written to `llvm::errs()`. -/
def ackermannizeWarning : String := "Core solver is not Z3, cannot ackermannize arrays\n"

/-- The decorator an array-ackermannization entry inserts when the request cannot be met:
a native-dialect logger created with no dialect configuration, writing to the path the
prober gives, again with no dialect configuration, for the entry's extension prefix.
Nothing is said of the other entries. -/
def Entry.Degraded (c : Call) : Entry → Decorator → Prop
  | .baseNativeLoggerAA, d =>
      ∃ s p, getSolverPath c.env s c.baseCoreSolverLangLogPath none (some "aa.") = some p ∧
        d = .CoreSolverLangLogging p c.cl.MinQueryTimeToLog none
  | .baseNativeLoggerAANoFpToIeeeBv, d =>
      ∃ s p, getSolverPath c.env s c.baseCoreSolverLangLogPath none
          (some "aa.no_fp_to_ieee_bv.") = some p ∧
        d = .CoreSolverLangLogging p c.cl.MinQueryTimeToLog none
  | _, _ => True

/-- A native-dialect logger as specified: its dialect configuration is the given pair of
flags when the core solver is Z3 and absent otherwise, and its file path is what the
prober gives for the path input `base`, that configuration and the extension prefix. -/
def IsNativeLogger (c : Call) (base : String) (extensionPrefix : Option String)
    (ackermannizeArrays useToIEEEBVFunction : Bool) (d : Decorator) : Prop :=
  ∃ (s : Solver) (p : String) (clc : Option Z3ConstraintLogConfig),
    clc = (if c.cl.CoreSolverToUse = Z3_SOLVER then
        some { ackermannizeArrays := ackermannizeArrays,
               useToIEEEBVFunction := useToIEEEBVFunction }
      else none) ∧
    getSolverPath c.env s base clc extensionPrefix = some p ∧
    d = .CoreSolverLangLogging p c.cl.MinQueryTimeToLog clc

/-- The extension prefix and dialect configuration specified for each native-dialect
entry.  Nothing is said of the other entries. -/
def Entry.AsSpecified (c : Call) : Entry → Decorator → Prop
  | .baseNativeLogger, d => IsNativeLogger c c.baseCoreSolverLangLogPath none false true d
  | .baseNativeLoggerNoFpToIeeeBv, d =>
      IsNativeLogger c c.baseCoreSolverLangLogPath (some "no_fp_to_ieee_bv.") false false d
  | .baseNativeLoggerAA, d =>
      IsNativeLogger c c.baseCoreSolverLangLogPath (some "aa.") true true d
  | .baseNativeLoggerAANoFpToIeeeBv, d =>
      IsNativeLogger c c.baseCoreSolverLangLogPath (some "aa.no_fp_to_ieee_bv.") true false d
  | .fullNativeLogger, d => IsNativeLogger c c.queryCoreSolverLangLogPath none false true d
  | _, _ => True

/-- The notice names the file: its text ends with the path as `%s` prints it, which is the
path up to its first NUL character, and a line break. -/
def Names (path notice : String) : Prop :=
  ∃ phrase : String, notice = phrase ++ c_str path ++ "\n"

/-! ## The builder as a walk over the fixed list -/

/-- What distinguishes one native-dialect logger from another. -/
structure NativeLogger where
  /-- The path input the file path is built on. -/
  base : String
  /-- The text put between the path input and the extension. -/
  extensionPrefix : Option String
  /-- The Z3 configuration filled in. -/
  z3clc : Z3ConstraintLogConfig
  /-- Whether array ackermannization is asked for. -/
  ackermannize : Bool
  /-- The notice, up to the file path. -/
  phrase : String

/-- The native-dialect loggers among the entries. -/
def Entry.native (c : Call) : Entry → Option NativeLogger
  | .baseNativeLogger => some
      { base := c.baseCoreSolverLangLogPath, extensionPrefix := none,
        z3clc := ⟨false, true⟩, ackermannize := false,
        phrase := "Logging queries that reach solver in core solver's language to " }
  | .baseNativeLoggerNoFpToIeeeBv => some
      { base := c.baseCoreSolverLangLogPath, extensionPrefix := some "no_fp_to_ieee_bv.",
        z3clc := ⟨false, false⟩, ackermannize := false,
        phrase := "Logging queries that reach solver avoiding use of fp.to_ieee_bv in core solver's language to " }
  | .baseNativeLoggerAA => some
      { base := c.baseCoreSolverLangLogPath, extensionPrefix := some "aa.",
        z3clc := ⟨true, true⟩, ackermannize := true,
        phrase := "Logging all (might be ackermannized) queries in core solver's language to " }
  | .baseNativeLoggerAANoFpToIeeeBv => some
      { base := c.baseCoreSolverLangLogPath, extensionPrefix := some "aa.no_fp_to_ieee_bv.",
        z3clc := ⟨true, false⟩, ackermannize := true,
        phrase := "Logging all (might be ackermannized) queries avoiding use of fp.to_ieee_bv in core solver's language to " }
  | .fullNativeLogger => some
      { base := c.queryCoreSolverLangLogPath, extensionPrefix := none,
        z3clc := ⟨false, true⟩, ackermannize := false,
        phrase := "Logging all queries in core solver's language to " }
  | _ => none

/-- The warning printed for a native-dialect logger. -/
def NativeLogger.warning (cl : CommandLine) (n : NativeLogger) : List Diag :=
  if n.ackermannize = true ∧ cl.CoreSolverToUse ≠ Z3_SOLVER then
    [Diag.errs "Core solver is not Z3, cannot ackermannize arrays\n"]
  else []

/-- The decorator an entry that is no native-dialect logger inserts, and its notice.  The
last case is the cross-checking decorator; the native-dialect loggers are dealt with by
`Entry.native` and `Entry.effect` never asks for their value here. -/
def Entry.plain (c : Call) : Entry → Decorator × List Diag
  | .baseKQueryLogger =>
      (.KQueryLogging c.baseSolverQueryKQueryLogPath c.cl.MinQueryTimeToLog,
       [Diag.message ("Logging queries that reach solver in .kquery format to "
          ++ c_str c.baseSolverQueryKQueryLogPath ++ "\n")])
  | .baseSMTLIBLogger =>
      (.SMTLIBLogging c.baseSolverQuerySMT2LogPath c.cl.MinQueryTimeToLog,
       [Diag.message ("Logging queries that reach solver in .smt2 format to "
          ++ c_str c.baseSolverQuerySMT2LogPath ++ "\n")])
  | .assignmentValidating => (.AssignmentValidating, [])
  | .fastCex => (.FastCex, [])
  | .cexCaching => (.CexCaching, [])
  | .caching => (.Caching, [])
  | .independence => (.Independent, [])
  | .debugValidating => (.Validating (some c.coreSolver), [])
  | .fullKQueryLogger =>
      (.KQueryLogging c.queryKQueryLogPath c.cl.MinQueryTimeToLog,
       [Diag.message ("Logging all queries in .kquery format to "
          ++ c_str c.queryKQueryLogPath ++ "\n")])
  | .fullSMTLIBLogger =>
      (.SMTLIBLogging c.querySMT2LogPath c.cl.MinQueryTimeToLog,
       [Diag.message ("Logging all queries in .smt2 format to "
          ++ c_str c.querySMT2LogPath ++ "\n")])
  | _ => (.Validating (c.env.createCoreSolver c.cl.DebugCrossCheckCoreSolverWith), [])

/-- The effect of an enabled entry on the working solver `s`: the decorator put around
`s` (none when no file path can be built) and the diagnostics printed. -/
def Entry.effect (c : Call) (e : Entry) (s : Solver) : Option Decorator × List Diag :=
  match e.native c with
  | some n =>
      match getSolverPath c.env s n.base (clcFor c.cl n.z3clc) n.extensionPrefix with
      | some filePath =>
          (some (.CoreSolverLangLogging filePath c.cl.MinQueryTimeToLog (clcFor c.cl n.z3clc)),
           n.warning c.cl ++ [Diag.message (n.phrase ++ c_str filePath ++ "\n")])
      | none => (none, n.warning c.cl)
  | none => (some (e.plain c).1, (e.plain c).2)

/-- The walk over a list of entries: every enabled entry acts on the working solver, in
the order of the list, until one has no result. -/
def walk (c : Call) : List Entry → Solver → List Diag → Option Solver × List Diag
  | [], s, out => (some s, out)
  | e :: es, s, out =>
      if e.enabled c.cl then
        match e.effect c s with
        | (some d, printed) => walk c es (d.wrap s) (out ++ printed)
        | (none, printed) => (none, out ++ printed)
      else walk c es s out

/-- The outcome of one enabled-or-not entry on the working solver. -/
def stageRun (c : Call) (e : Entry) (s : Solver) (out : List Diag) : Option Solver × List Diag :=
  if e.enabled c.cl then
    match e.effect c s with
    | (some d, printed) => (some (d.wrap s), out ++ printed)
    | (none, printed) => (none, out ++ printed)
  else (some s, out)

/-- The part of a native-dialect log path that precedes the extension. -/
def pathStem (base : String) (extensionPrefix : Option String) : String :=
  match extensionPrefix with
  | some p => base ++ p
  | none => base

/-- The warnings an entry prints. -/
def Entry.warns (c : Call) : Entry → List String
  | .baseNativeLoggerAA =>
      if c.cl.CoreSolverToUse = Z3_SOLVER then [] else [ackermannizeWarning]
  | .baseNativeLoggerAANoFpToIeeeBv =>
      if c.cl.CoreSolverToUse = Z3_SOLVER then [] else [ackermannizeWarning]
  | _ => []

/-! ## Sample inputs -/

/-- A collaborator whose every solver reports the extension `.smt2`, and whose factory
builds the solver of handle 1. -/
def smt2Env : Env :=
  { getConstraintLog := fun _ _ _ => ("(check-sat)", some ".smt2"),
    createCoreSolver := fun _ => some (Solver.core 1) }

/-- A collaborator whose solvers leave the extension null. -/
def nullEnv : Env :=
  { getConstraintLog := fun _ _ _ => ("", none),
    createCoreSolver := fun _ => some (Solver.core 1) }

/-- The command line with every toggle off, for the core solver `core`. -/
def allOff (core : CoreSolverType) : CommandLine :=
  { queryLoggingOptions := [], MinQueryTimeToLog := 0, CoreSolverToUse := core,
    UseAssignmentValidatingSolver := false, UseFastCexSolver := false, UseCexCache := false,
    UseCache := false, UseIndependentSolver := false, DebugValidateSolver := false,
    DebugCrossCheckCoreSolverWith := NO_SOLVER }

/-- A call with the given command line and collaborators, the base solver of handle 0
and the six path inputs `"all.smt2"`, `"base.smt2"`, `"all.kquery"`, `"base.kquery"`,
`"all."` and `"q"`. -/
def sampleCall (cl : CommandLine) (env : Env) : Call :=
  { cl := cl, env := env, coreSolver := Solver.core 0,
    querySMT2LogPath := "all.smt2", baseSolverQuerySMT2LogPath := "base.smt2",
    queryKQueryLogPath := "all.kquery", baseSolverQueryKQueryLogPath := "base.kquery",
    queryCoreSolverLangLogPath := "all.", baseCoreSolverLangLogPath := "q" }

/-- The sample call with a backend other than Z3 and a single toggle set, the base-scoped
native-dialect `aa.no_fp_to_ieee_bv` logger. -/
def aaNoFpCall : Call :=
  sampleCall { allOff (OTHER_SOLVER 0) with
    queryLoggingOptions := [SOLVER_CORE_SOLVER_LANG_AA_NO_USE_FP_TO_IEEE_BV] } smt2Env

/-- The sample call for Z3 with three logging toggles set: the base-scoped SMT-LIB logger,
the base-scoped native-dialect `aa` logger and the full native-dialect logger. -/
def threeLoggersCall : Call :=
  sampleCall { allOff Z3_SOLVER with
    queryLoggingOptions := [ALL_CORE_SOLVER_LANG, SOLVER_SMTLIB, SOLVER_CORE_SOLVER_LANG_AA] }
    smt2Env

/-- The sample call with debug cross-validation, both caches and the full KQuery logger
enabled. -/
def debugCall : Call :=
  sampleCall { allOff Z3_SOLVER with
    queryLoggingOptions := [ALL_KQUERY], UseCexCache := true, UseCache := true,
    DebugValidateSolver := true } smt2Env

/-- The sample call with independence splitting, the full SMT-LIB logger and
cross-checking against another backend enabled. -/
def crossCheckCall : Call :=
  sampleCall { allOff Z3_SOLVER with
    queryLoggingOptions := [ALL_SMTLIB], UseIndependentSolver := true,
    DebugCrossCheckCoreSolverWith := OTHER_SOLVER 0 } smt2Env

/-- The sample call for a backend other than Z3 with both array-ackermannization toggles
and the base-scoped native-dialect logger set. -/
def ackermannizeCall : Call :=
  sampleCall { allOff (OTHER_SOLVER 0) with
    queryLoggingOptions := [SOLVER_CORE_SOLVER_LANG_AA,
      SOLVER_CORE_SOLVER_LANG_AA_NO_USE_FP_TO_IEEE_BV, SOLVER_CORE_SOLVER_LANG] } smt2Env

/-- The sample call with counter-example caching alone. -/
def cexCacheCall : Call :=
  sampleCall { allOff Z3_SOLVER with UseCexCache := true } smt2Env

/-- The sample call with the base-scoped native-dialect logger alone, on solvers that
report no extension. -/
def baseNativeNullCall : Call :=
  sampleCall { allOff Z3_SOLVER with queryLoggingOptions := [SOLVER_CORE_SOLVER_LANG] } nullEnv

/-- The sample call with the full native-dialect logger alone, on solvers that report no
extension. -/
def fullNativeNullCall : Call :=
  sampleCall { allOff Z3_SOLVER with queryLoggingOptions := [ALL_CORE_SOLVER_LANG] } nullEnv

/-! ## Further notions and sample inputs -/

/-- A collaborator whose solvers report the extension `.smt2` and whose factory builds no
solver, whatever the backend asked for. -/
def noOracleEnv : Env :=
  { getConstraintLog := fun _ _ _ => ("(check-sat)", some ".smt2"),
    createCoreSolver := fun _ => none }

/-- The sample call with cross-checking against another backend as the only toggle set,
on a factory that builds no solver. -/
def noOracleCall : Call :=
  sampleCall { allOff Z3_SOLVER with DebugCrossCheckCoreSolverWith := OTHER_SOLVER 0 }
    noOracleEnv

/-- Modelled from the spec: `isTrue` of `klee/Expr.h`, which is not part of the sources at
hand: the boolean constant true is the constant of value 1 and width one bit. -/
def isTrue : Expr → Bool
  | .ConstantExpr value width => width == Expr.Bool && value == 1

/-- Modelled from the spec: `isFalse` of `klee/Expr.h`, which is not part of the sources at
hand: the boolean constant false is the constant of value 0 and width one bit. -/
def isFalse : Expr → Bool
  | .ConstantExpr value width => width == Expr.Bool && value == 0

/-- The trivially true query: no constraint, and the boolean constant true to evaluate. -/
def trueQuery : Query := ⟨{}, Expr.ConstantExpr 1 Expr.Bool⟩

/-- A collaborator whose solvers report the extension `.smt2` for the trivially true query
and leave it null for every other query. -/
def trueQueryOnlyEnv : Env :=
  { getConstraintLog := fun _ q _ =>
      if q = trueQuery then ("(check-sat)", some ".smt2") else ("", none),
    createCoreSolver := fun _ => some (Solver.core 1) }

/-- In a list of decorators read from the base solver outwards, `inner` comes before
`outer`: it is nested inside `outer`, closer to the base. -/
def NestedInside (inner outer : Decorator) (ds : List Decorator) : Prop :=
  ∃ a b c : List Decorator, ds = a ++ inner :: (b ++ outer :: c)

/-- The decorators of the two caches and of independence splitting that are enabled, from
the base solver outwards. -/
def cacheLayers (cl : CommandLine) : List Decorator :=
  (if cl.UseCexCache = true then [Decorator.CexCaching] else []) ++
  ((if cl.UseCache = true then [Decorator.Caching] else []) ++
   (if cl.UseIndependentSolver = true then [Decorator.Independent] else []))

/-- The command line `cl` with every toggle off but the two caches, set as given. -/
def onlyCaches (cexCache cache : Bool) (cl : CommandLine) : CommandLine :=
  { cl with
    queryLoggingOptions := [], UseAssignmentValidatingSolver := false,
    UseFastCexSolver := false, UseCexCache := cexCache, UseCache := cache,
    UseIndependentSolver := false, DebugValidateSolver := false,
    DebugCrossCheckCoreSolverWith := NO_SOLVER }

/-- The sample call with both caches, independence splitting and the base-scoped SMT-LIB
logger enabled. -/
def cachesCall : Call :=
  sampleCall { allOff Z3_SOLVER with
    queryLoggingOptions := [SOLVER_SMTLIB], UseCexCache := true, UseCache := true,
    UseIndependentSolver := true } smt2Env

/-- The decorators `ds` are inserted one for each entry of `es`, in order, starting from
the working solver `s`: the first entry `e` puts its decorator `d` around `s`, with
`R e s d`, and the entries after it go on from `d.wrap s` in the same way. -/
def Stepwise (R : Entry → Solver → Decorator → Prop) : Solver → List Entry → List Decorator → Prop
  | _, [], [] => True
  | s, e :: es, d :: ds => R e s d ∧ Stepwise R (d.wrap s) es ds
  | _, _, _ => False

/-- What holds of a native-dialect entry acting on the working solver `s`: its decorator
`d` is a native-dialect logger, and the file path of `d` is what the prober gives for `s`
itself, the entry's path input and extension prefix, and the very dialect configuration
`d` is created with.  Nothing is said of the other entries. -/
def Entry.ProbesWrapped (c : Call) : Entry → Solver → Decorator → Prop
  | .baseNativeLogger, s, d =>
      ∃ p clc, getSolverPath c.env s c.baseCoreSolverLangLogPath clc none = some p ∧
        d = .CoreSolverLangLogging p c.cl.MinQueryTimeToLog clc
  | .baseNativeLoggerNoFpToIeeeBv, s, d =>
      ∃ p clc, getSolverPath c.env s c.baseCoreSolverLangLogPath clc
          (some "no_fp_to_ieee_bv.") = some p ∧
        d = .CoreSolverLangLogging p c.cl.MinQueryTimeToLog clc
  | .baseNativeLoggerAA, s, d =>
      ∃ p clc, getSolverPath c.env s c.baseCoreSolverLangLogPath clc (some "aa.") = some p ∧
        d = .CoreSolverLangLogging p c.cl.MinQueryTimeToLog clc
  | .baseNativeLoggerAANoFpToIeeeBv, s, d =>
      ∃ p clc, getSolverPath c.env s c.baseCoreSolverLangLogPath clc
          (some "aa.no_fp_to_ieee_bv.") = some p ∧
        d = .CoreSolverLangLogging p c.cl.MinQueryTimeToLog clc
  | .fullNativeLogger, s, d =>
      ∃ p clc, getSolverPath c.env s c.queryCoreSolverLangLogPath clc none = some p ∧
        d = .CoreSolverLangLogging p c.cl.MinQueryTimeToLog clc
  | _, _, _ => True

/-- A collaborator whose extension tells how many decorators are around the base solver
of the solver probed: `.0` for the base solver itself, `.1` under one decorator, and `.n`
under more. -/
def depthEnv : Env :=
  { getConstraintLog := fun s _ _ =>
      match s with
      | Solver.core _ => ("", some ".0")
      | Solver.createKQueryLoggingSolver (Solver.core _) _ _ => ("", some ".1")
      | Solver.createSMTLIBLoggingSolver (Solver.core _) _ _ => ("", some ".1")
      | Solver.createCoreSolverLangLoggingSolver (Solver.core _) _ _ _ => ("", some ".1")
      | _ => ("", some ".n"),
    createCoreSolver := fun _ => some (Solver.core 1) }

/-- The sample call on `depthEnv` with the base-scoped native-dialect logger, the full
KQuery logger and the full native-dialect logger set. -/
def depthCall : Call :=
  sampleCall { allOff Z3_SOLVER with
    queryLoggingOptions := [SOLVER_CORE_SOLVER_LANG, ALL_KQUERY, ALL_CORE_SOLVER_LANG] }
    depthEnv

/-! ## The reference parameter of `getSolverPath` -/

/-- The function `getSolverPath` with its reference parameter `base` made explicit: the
path returned, and the value `base` holds when the function returns.  The path is built
in `filePath`, a copy of `base`. -/
def getSolverPathRef (env : Env) (solver : Solver) (base : String)
    (clc : Option Z3ConstraintLogConfig) (extensionPrefix : Option String) :
    Option (String × String) :=
  let fileExtension : Option String := (env.getConstraintLog solver dummyQuery clc).2
  let filePath := base
  let filePath := match extensionPrefix with
    | some p => filePath ++ p
    | none => filePath
  match fileExtension with
  | some ext => some (filePath ++ ext, base)
  | none => none

/-- The function `klee::constructSolverChain` with the reference parameter of
`getSolverPath` made explicit: the two native-dialect path variables are handed to
`getSolverPathRef` and read back from it at every call. -/
def constructSolverChainRef (cl : CommandLine) (env : Env) (coreSolver : Solver)
    (querySMT2LogPath baseSolverQuerySMT2LogPath queryKQueryLogPath
      baseSolverQueryKQueryLogPath queryCoreSolverLangLogPath
      baseCoreSolverLangLogPath : String) : Build Solver := do
  let solver := coreSolver
  let solver ←
    (if optionIsSet cl.queryLoggingOptions SOLVER_KQUERY then do
      let solver := createKQueryLoggingSolver solver baseSolverQueryKQueryLogPath
        cl.MinQueryTimeToLog
      klee_message ("Logging queries that reach solver in .kquery format to "
        ++ c_str baseSolverQueryKQueryLogPath ++ "\n")
      pure solver
    else pure solver)
  let solver ←
    (if optionIsSet cl.queryLoggingOptions SOLVER_SMTLIB then do
      let solver := createSMTLIBLoggingSolver solver baseSolverQuerySMT2LogPath
        cl.MinQueryTimeToLog
      klee_message ("Logging queries that reach solver in .smt2 format to "
        ++ c_str baseSolverQuerySMT2LogPath ++ "\n")
      pure solver
    else pure solver)
  let (solver, baseCoreSolverLangLogPath) ←
    (if optionIsSet cl.queryLoggingOptions SOLVER_CORE_SOLVER_LANG then do
      let z3clc : Z3ConstraintLogConfig :=
        { ackermannizeArrays := false, useToIEEEBVFunction := true }
      let clc := if cl.CoreSolverToUse = Z3_SOLVER then some z3clc else none
      let (filePath, baseCoreSolverLangLogPath) ←
        defined (getSolverPathRef env solver baseCoreSolverLangLogPath clc none)
      let solver := createCoreSolverLangLoggingSolver solver filePath
        cl.MinQueryTimeToLog clc
      klee_message ("Logging queries that reach solver in core solver's language to "
        ++ c_str filePath ++ "\n")
      pure (solver, baseCoreSolverLangLogPath)
    else pure (solver, baseCoreSolverLangLogPath))
  let (solver, baseCoreSolverLangLogPath) ←
    (if optionIsSet cl.queryLoggingOptions SOLVER_CORE_SOLVER_LANG_NO_USE_FP_TO_IEEE_BV then do
      let z3clc : Z3ConstraintLogConfig :=
        { ackermannizeArrays := false, useToIEEEBVFunction := false }
      let clc := if cl.CoreSolverToUse = Z3_SOLVER then some z3clc else none
      let (filePath, baseCoreSolverLangLogPath) ←
        defined (getSolverPathRef env solver baseCoreSolverLangLogPath clc
          (some "no_fp_to_ieee_bv."))
      let solver := createCoreSolverLangLoggingSolver solver filePath
        cl.MinQueryTimeToLog clc
      klee_message
        ("Logging queries that reach solver avoiding use of fp.to_ieee_bv in core solver's language to "
          ++ c_str filePath ++ "\n")
      pure (solver, baseCoreSolverLangLogPath)
    else pure (solver, baseCoreSolverLangLogPath))
  let (solver, baseCoreSolverLangLogPath) ←
    (if optionIsSet cl.queryLoggingOptions SOLVER_CORE_SOLVER_LANG_AA then do
      let z3clc : Z3ConstraintLogConfig :=
        { ackermannizeArrays := true, useToIEEEBVFunction := true }
      let clc ←
        (if cl.CoreSolverToUse = Z3_SOLVER then pure (some z3clc)
        else do
          errs "Core solver is not Z3, cannot ackermannize arrays\n"
          pure none)
      let (filePath, baseCoreSolverLangLogPath) ←
        defined (getSolverPathRef env solver baseCoreSolverLangLogPath clc
          (some "aa."))
      let solver := createCoreSolverLangLoggingSolver solver filePath
        cl.MinQueryTimeToLog clc
      klee_message
        ("Logging all (might be ackermannized) queries in core solver's language to "
          ++ c_str filePath ++ "\n")
      pure (solver, baseCoreSolverLangLogPath)
    else pure (solver, baseCoreSolverLangLogPath))
  let (solver, _) ←
    (if optionIsSet cl.queryLoggingOptions
        SOLVER_CORE_SOLVER_LANG_AA_NO_USE_FP_TO_IEEE_BV then do
      let z3clc : Z3ConstraintLogConfig :=
        { ackermannizeArrays := true, useToIEEEBVFunction := false }
      let clc ←
        (if cl.CoreSolverToUse = Z3_SOLVER then pure (some z3clc)
        else do
          errs "Core solver is not Z3, cannot ackermannize arrays\n"
          pure none)
      let (filePath, baseCoreSolverLangLogPath) ←
        defined (getSolverPathRef env solver baseCoreSolverLangLogPath clc
          (some "aa.no_fp_to_ieee_bv."))
      let solver := createCoreSolverLangLoggingSolver solver filePath
        cl.MinQueryTimeToLog clc
      klee_message
        ("Logging all (might be ackermannized) queries avoiding use of fp.to_ieee_bv in core solver's language to "
          ++ c_str filePath ++ "\n")
      pure (solver, baseCoreSolverLangLogPath)
    else pure (solver, baseCoreSolverLangLogPath))
  let solver ←
    (if cl.UseAssignmentValidatingSolver then pure (createAssignmentValidatingSolver solver)
    else pure solver)
  let solver ←
    (if cl.UseFastCexSolver then pure (createFastCexSolver solver) else pure solver)
  let solver ←
    (if cl.UseCexCache then pure (createCexCachingSolver solver) else pure solver)
  let solver ←
    (if cl.UseCache then pure (createCachingSolver solver) else pure solver)
  let solver ←
    (if cl.UseIndependentSolver then pure (createIndependentSolver solver) else pure solver)
  let solver ←
    (if cl.DebugValidateSolver then pure (createValidatingSolver solver (some coreSolver))
    else pure solver)
  let solver ←
    (if optionIsSet cl.queryLoggingOptions ALL_KQUERY then do
      let solver := createKQueryLoggingSolver solver queryKQueryLogPath cl.MinQueryTimeToLog
      klee_message ("Logging all queries in .kquery format to "
        ++ c_str queryKQueryLogPath ++ "\n")
      pure solver
    else pure solver)
  let solver ←
    (if optionIsSet cl.queryLoggingOptions ALL_SMTLIB then do
      let solver := createSMTLIBLoggingSolver solver querySMT2LogPath cl.MinQueryTimeToLog
      klee_message ("Logging all queries in .smt2 format to " ++ c_str querySMT2LogPath ++ "\n")
      pure solver
    else pure solver)
  let (solver, _) ←
    (if optionIsSet cl.queryLoggingOptions ALL_CORE_SOLVER_LANG then do
      let z3clc : Z3ConstraintLogConfig :=
        { useToIEEEBVFunction := true, ackermannizeArrays := false }
      let clc := if cl.CoreSolverToUse = Z3_SOLVER then some z3clc else none
      let (filePath, queryCoreSolverLangLogPath) ←
        defined (getSolverPathRef env solver queryCoreSolverLangLogPath clc none)
      let solver := createCoreSolverLangLoggingSolver solver filePath
        cl.MinQueryTimeToLog clc
      klee_message ("Logging all queries in core solver's language to " ++ c_str filePath ++ "\n")
      pure (solver, queryCoreSolverLangLogPath)
    else pure (solver, queryCoreSolverLangLogPath))
  let solver ←
    (if cl.DebugCrossCheckCoreSolverWith ≠ NO_SOLVER then do
      let oracleSolver := env.createCoreSolver cl.DebugCrossCheckCoreSolverWith
      pure (createValidatingSolver solver oracleSolver)
    else pure solver)
  return solver

/-- What is said of the file of each base-scoped native-dialect logger: it is the path
input of the call, as the caller gave it, followed by the extension prefix of the entry
alone and by an extension.  Nothing is said of the other entries. -/
def Entry.BuiltOnBaseInput (c : Call) : Entry → Decorator → Prop
  | .baseNativeLogger, d => ∃ ext, d.logPath = some (c.baseCoreSolverLangLogPath ++ ext)
  | .baseNativeLoggerNoFpToIeeeBv, d =>
      ∃ ext, d.logPath = some (c.baseCoreSolverLangLogPath ++ "no_fp_to_ieee_bv." ++ ext)
  | .baseNativeLoggerAA, d =>
      ∃ ext, d.logPath = some (c.baseCoreSolverLangLogPath ++ "aa." ++ ext)
  | .baseNativeLoggerAANoFpToIeeeBv, d =>
      ∃ ext, d.logPath = some (c.baseCoreSolverLangLogPath ++ "aa.no_fp_to_ieee_bv." ++ ext)
  | _, _ => True

/-- The sample call for Z3 with the four base-scoped native-dialect loggers set. -/
def fourNativeCall : Call :=
  sampleCall { allOff Z3_SOLVER with
    queryLoggingOptions := [SOLVER_CORE_SOLVER_LANG,
      SOLVER_CORE_SOLVER_LANG_NO_USE_FP_TO_IEEE_BV, SOLVER_CORE_SOLVER_LANG_AA,
      SOLVER_CORE_SOLVER_LANG_AA_NO_USE_FP_TO_IEEE_BV] } smt2Env

/-! ## The defeated prober -/

/-- The prober is defeated at the entry `e` on the working solver `s`: `e` is a
native-dialect logger and `getSolverPath` has no file path for `s` with the path input,
dialect configuration and extension prefix of `e`.  No other entry calls the prober. -/
def Entry.Defeated (c : Call) : Entry → Solver → Prop
  | .baseNativeLogger, s =>
      getSolverPath c.env s c.baseCoreSolverLangLogPath (clcFor c.cl ⟨false, true⟩) none = none
  | .baseNativeLoggerNoFpToIeeeBv, s =>
      getSolverPath c.env s c.baseCoreSolverLangLogPath (clcFor c.cl ⟨false, false⟩)
        (some "no_fp_to_ieee_bv.") = none
  | .baseNativeLoggerAA, s =>
      getSolverPath c.env s c.baseCoreSolverLangLogPath (clcFor c.cl ⟨true, true⟩)
        (some "aa.") = none
  | .baseNativeLoggerAANoFpToIeeeBv, s =>
      getSolverPath c.env s c.baseCoreSolverLangLogPath (clcFor c.cl ⟨true, false⟩)
        (some "aa.no_fp_to_ieee_bv.") = none
  | .fullNativeLogger, s =>
      getSolverPath c.env s c.queryCoreSolverLangLogPath (clcFor c.cl ⟨false, true⟩) none = none
  | _, _ => False

/-- The sample call with the base-scoped KQuery logger alone, on solvers that report no
extension. -/
def kqueryNullCall : Call :=
  sampleCall { allOff Z3_SOLVER with queryLoggingOptions := [SOLVER_KQUERY] } nullEnv

/-- The sample call for a backend other than Z3 with the base-scoped SMT-LIB logger and
the base-scoped native-dialect `aa` logger set, on solvers that report no extension. -/
def smtlibThenAANullCall : Call :=
  sampleCall { allOff (OTHER_SOLVER 0) with
    queryLoggingOptions := [SOLVER_SMTLIB, SOLVER_CORE_SOLVER_LANG_AA] } nullEnv

/-- The sample call with the base-scoped KQuery logger alone, writing to a path that
holds a NUL character. -/
def nulPathCall : Call :=
  { sampleCall { allOff Z3_SOLVER with queryLoggingOptions := [SOLVER_KQUERY] } smt2Env with
    baseSolverQueryKQueryLogPath := "a\x00b" }

/-! ## The builder is the walk -/

/-- Running a sequence: the second step runs after the first, unless the first has no result. -/
theorem Build.run_bind {α β : Type} (m : Build α) (k : α → Build β) (out : List Diag) :
    (m >>= k).run out =
      match m.run out with
      | (some a, o) => (k a).run o
      | (none, o) => (none, o) := rfl

/-- One stage of the builder followed by the rest is one entry of the walk followed by the rest. -/
theorem walk_of_bind (c : Call) (m : Build Solver) (k : Solver → Build Solver) (e : Entry)
    (es : List Entry) (s : Solver) (out : List Diag)
    (h1 : m.run out = stageRun c e s out)
    (h2 : ∀ s1 out1, (k s1).run out1 = walk c es s1 out1) :
    (m >>= k).run out = walk c (e :: es) s out := by
  rw [Build.run_bind, h1]
  unfold stageRun
  rw [walk]
  by_cases he : e.enabled c.cl = true
  · simp only [he, if_true]
    rcases hd : e.effect c s with ⟨_ | d, printed⟩
    · simp
    · simp [h2]
  · simp only [he]
    simp [h2]

/-- The builder does what the walk over the fixed list does. -/
theorem result_eq_walk (c : Call) : c.result = walk c fixedOrder c.coreSolver [] := by
  unfold Call.result constructSolverChain fixedOrder
  apply walk_of_bind
  · simp only [stageRun, Entry.enabled, Entry.effect, Entry.native, Entry.plain, clcFor]
    split
    · rfl
    · rfl
  intro s out
  apply walk_of_bind
  · simp only [stageRun, Entry.enabled, Entry.effect, Entry.native, Entry.plain, clcFor]
    split
    · rfl
    · rfl
  intro s out
  apply walk_of_bind
  · simp only [stageRun, Entry.enabled, Entry.effect, Entry.native, Entry.plain, clcFor]
    split
    · by_cases hz : c.cl.CoreSolverToUse = Z3_SOLVER <;>
        simp only [hz, if_true, if_false, Build.run_bind, Build.run, NativeLogger.warning,
          Decorator.wrap, klee_message, errs, pure, bind, defined] <;>
        (generalize getSolverPath _ _ _ _ _ = r; cases r <;> simp [hz])
    · rfl
  intro s out
  apply walk_of_bind
  · simp only [stageRun, Entry.enabled, Entry.effect, Entry.native, Entry.plain, clcFor]
    split
    · by_cases hz : c.cl.CoreSolverToUse = Z3_SOLVER <;>
        simp only [hz, if_true, if_false, Build.run_bind, Build.run, NativeLogger.warning,
          Decorator.wrap, klee_message, errs, pure, bind, defined] <;>
        (generalize getSolverPath _ _ _ _ _ = r; cases r <;> simp [hz])
    · rfl
  intro s out
  apply walk_of_bind
  · simp only [stageRun, Entry.enabled, Entry.effect, Entry.native, Entry.plain, clcFor]
    split
    · by_cases hz : c.cl.CoreSolverToUse = Z3_SOLVER <;>
        simp only [hz, if_true, if_false, Build.run_bind, Build.run, NativeLogger.warning,
          Decorator.wrap, klee_message, errs, pure, bind, defined] <;>
        (generalize getSolverPath _ _ _ _ _ = r; cases r <;> simp [hz])
    · rfl
  intro s out
  apply walk_of_bind
  · simp only [stageRun, Entry.enabled, Entry.effect, Entry.native, Entry.plain, clcFor]
    split
    · by_cases hz : c.cl.CoreSolverToUse = Z3_SOLVER <;>
        simp only [hz, if_true, if_false, Build.run_bind, Build.run, NativeLogger.warning,
          Decorator.wrap, klee_message, errs, pure, bind, defined] <;>
        (generalize getSolverPath _ _ _ _ _ = r; cases r <;> simp [hz])
    · rfl
  intro s out
  apply walk_of_bind
  · simp only [stageRun, Entry.enabled, Entry.effect, Entry.native, Entry.plain, clcFor]
    split
    · simp_all [Build.run, pure, Decorator.wrap]
    · rfl
  intro s out
  apply walk_of_bind
  · simp only [stageRun, Entry.enabled, Entry.effect, Entry.native, Entry.plain, clcFor]
    split
    · simp_all [Build.run, pure, Decorator.wrap]
    · rfl
  intro s out
  apply walk_of_bind
  · simp only [stageRun, Entry.enabled, Entry.effect, Entry.native, Entry.plain, clcFor]
    split
    · simp_all [Build.run, pure, Decorator.wrap]
    · rfl
  intro s out
  apply walk_of_bind
  · simp only [stageRun, Entry.enabled, Entry.effect, Entry.native, Entry.plain, clcFor]
    split
    · simp_all [Build.run, pure, Decorator.wrap]
    · rfl
  intro s out
  apply walk_of_bind
  · simp only [stageRun, Entry.enabled, Entry.effect, Entry.native, Entry.plain, clcFor]
    split
    · simp_all [Build.run, pure, Decorator.wrap]
    · rfl
  intro s out
  apply walk_of_bind
  · simp only [stageRun, Entry.enabled, Entry.effect, Entry.native, Entry.plain, clcFor]
    split
    · simp_all [Build.run, pure, Decorator.wrap]
    · rfl
  intro s out
  apply walk_of_bind
  · simp only [stageRun, Entry.enabled, Entry.effect, Entry.native, Entry.plain, clcFor]
    split
    · rfl
    · rfl
  intro s out
  apply walk_of_bind
  · simp only [stageRun, Entry.enabled, Entry.effect, Entry.native, Entry.plain, clcFor]
    split
    · rfl
    · rfl
  intro s out
  apply walk_of_bind
  · simp only [stageRun, Entry.enabled, Entry.effect, Entry.native, Entry.plain, clcFor]
    split
    · by_cases hz : c.cl.CoreSolverToUse = Z3_SOLVER <;>
        simp only [hz, if_true, if_false, Build.run_bind, Build.run, NativeLogger.warning,
          Decorator.wrap, klee_message, errs, pure, bind, defined] <;>
        (generalize getSolverPath _ _ _ _ _ = r; cases r <;> simp [hz])
    · rfl
  intro s out
  apply walk_of_bind
  · simp only [stageRun, Entry.enabled, Entry.effect, Entry.native, Entry.plain, clcFor]
    split
    · simp_all [Build.run, pure, Decorator.wrap]
    · simp_all [Build.run, pure, Decorator.wrap]
  intro s out
  rfl

/-! ## Lemmas on the walk -/

/-- The first decorator of the list is the one next to the base. -/
theorem wrapAll_cons (s : Solver) (d : Decorator) (ds : List Decorator) :
    wrapAll s (d :: ds) = wrapAll (d.wrap s) ds := rfl

/-- The walk over no entry. -/
theorem walk_nil (c : Call) (s : Solver) (out : List Diag) : walk c [] s out = (some s, out) := rfl

/-- An entry that is not enabled is passed over. -/
theorem walk_cons_disabled (c : Call) (e : Entry) (es : List Entry) (s : Solver)
    (out : List Diag) (he : e.enabled c.cl = false) :
    walk c (e :: es) s out = walk c es s out := by
  simp [walk, he]

/-- An enabled entry that inserts a decorator: the walk goes on from the wrapped solver. -/
theorem walk_cons_some (c : Call) (e : Entry) (es : List Entry) (s : Solver)
    (out : List Diag) (d : Decorator) (printed : List Diag) (he : e.enabled c.cl = true)
    (hd : e.effect c s = (some d, printed)) :
    walk c (e :: es) s out = walk c es (d.wrap s) (out ++ printed) := by
  simp [walk, he, hd]

/-- An enabled entry for which no file path can be built ends the walk without a result. -/
theorem walk_cons_none (c : Call) (e : Entry) (es : List Entry) (s : Solver)
    (out : List Diag) (printed : List Diag) (he : e.enabled c.cl = true)
    (hd : e.effect c s = (none, printed)) :
    walk c (e :: es) s out = (none, out ++ printed) := by
  simp [walk, he, hd]

/-- The walk over two lists in a row. -/
theorem walk_append (c : Call) (es1 es2 : List Entry) :
    ∀ (s : Solver) (out : List Diag),
      walk c (es1 ++ es2) s out =
        match walk c es1 s out with
        | (some s1, out1) => walk c es2 s1 out1
        | (none, out1) => (none, out1) := by
  induction es1 with
  | nil => intro s out; rfl
  | cons e es ih =>
    intro s out
    cases he : e.enabled c.cl
    · simp only [List.cons_append, walk_cons_disabled c e _ s out he, ih]
    · rcases hd : e.effect c s with ⟨_ | d, printed⟩
      · simp only [List.cons_append, walk_cons_none c e _ s out printed he hd]
      · simp only [List.cons_append, walk_cons_some c e _ s out d printed he hd, ih]

/-- A walk that returns a chain inserted one decorator and printed one batch of diagnostics for each enabled entry, in order; a relation that holds at every enabled entry holds along the whole walk. -/
theorem walk_steps (c : Call) (R : Entry → Decorator → List Diag → Prop) :
    ∀ (es : List Entry),
      (∀ e ∈ es, ∀ s d printed, e.enabled c.cl = true →
        e.effect c s = (some d, printed) → R e d printed) →
      ∀ (s : Solver) (out : List Diag) (chain : Solver) (out1 : List Diag),
        walk c es s out = (some chain, out1) →
        ∃ steps : List (Decorator × List Diag),
          chain = wrapAll s (steps.map Prod.fst) ∧
          out1 = out ++ (steps.map Prod.snd).flatten ∧
          List.Forall₂ (fun e st => R e st.1 st.2) (es.filter (Entry.enabled c.cl)) steps := by
  intro es
  induction es with
  | nil =>
    intro _ s out chain out1 h
    rw [walk_nil] at h
    refine ⟨[], ?_, ?_, by simp⟩
    · simpa using (congrArg Prod.fst h).symm
    · simpa using (congrArg Prod.snd h).symm
  | cons e es ih =>
    intro hR s out chain out1 h
    have hR1 : ∀ e1 ∈ es, ∀ s d printed, e1.enabled c.cl = true →
        e1.effect c s = (some d, printed) → R e1 d printed :=
      fun e1 h1 => hR e1 (List.mem_cons_of_mem e h1)
    cases he : e.enabled c.cl
    · rw [walk_cons_disabled c e es s out he] at h
      obtain ⟨steps, h1, h2, h3⟩ := ih hR1 s out chain out1 h
      exact ⟨steps, h1, h2, by simpa [List.filter_cons, he] using h3⟩
    · rcases hd : e.effect c s with ⟨_ | d, printed⟩
      · rw [walk_cons_none c e es s out printed he hd] at h
        simp at h
      · rw [walk_cons_some c e es s out d printed he hd] at h
        obtain ⟨steps, h1, h2, h3⟩ := ih hR1 _ _ chain out1 h
        refine ⟨(d, printed) :: steps, ?_, ?_, ?_⟩
        · simpa [wrapAll_cons] using h1
        · simpa [List.append_assoc] using h2
        · simp only [List.filter_cons, he, if_true]
          exact List.Forall₂.cons (hR e (List.mem_cons_self e es) s d printed he hd) h3

/-- The same for a relation between entries and decorators alone. -/
theorem walk_forall2 (c : Call) (R : Entry → Decorator → Prop) (es : List Entry)
    (hR : ∀ e ∈ es, ∀ s d, e.enabled c.cl = true → (e.effect c s).1 = some d → R e d)
    (s : Solver) (out : List Diag) (chain : Solver)
    (h : (walk c es s out).1 = some chain) :
    ∃ ds, chain = wrapAll s ds ∧ List.Forall₂ R (es.filter (Entry.enabled c.cl)) ds := by
  obtain ⟨steps, h1, _, h3⟩ :=
    walk_steps c (fun e d _ => R e d) es
      (fun e he s d printed hen hd => hR e he s d hen (by rw [hd])) s out chain
      (walk c es s out).2 (by rw [← h])
  exact ⟨steps.map Prod.fst, h1, List.forall₂_map_right_iff.mpr h3⟩

/-- When the solvers report an extension every entry inserts a decorator. -/
theorem effect_isSome (c : Call) (h : c.env.ReportsExtension) (e : Entry) (s : Solver) :
    ∃ d printed, e.effect c s = (some d, printed) := by
  unfold Entry.effect
  cases hn : e.native c with
  | none => exact ⟨_, _, rfl⟩
  | some n =>
    obtain ⟨ext, hext⟩ := h s (clcFor c.cl n.z3clc)
    simp only [getSolverPath, hext]
    exact ⟨_, _, rfl⟩

/-- A walk whose enabled entries all insert a decorator returns a chain. -/
theorem walk_isSome_of (c : Call) :
    ∀ (es : List Entry),
      (∀ e ∈ es, e.enabled c.cl = true → ∀ s, ∃ d printed, e.effect c s = (some d, printed)) →
      ∀ (s : Solver) (out : List Diag), ∃ chain, (walk c es s out).1 = some chain := by
  intro es
  induction es with
  | nil => intro _ s out; exact ⟨s, rfl⟩
  | cons e es ih =>
    intro hE s out
    have hE1 : ∀ e1 ∈ es, e1.enabled c.cl = true →
        ∀ s, ∃ d printed, e1.effect c s = (some d, printed) :=
      fun e1 h1 => hE e1 (List.mem_cons_of_mem e h1)
    cases he : e.enabled c.cl
    · rw [walk_cons_disabled c e es s out he]; exact ih hE1 s out
    · obtain ⟨d, printed, hd⟩ := hE e (List.mem_cons_self e es) he s
      rw [walk_cons_some c e es s out d printed he hd]; exact ih hE1 _ _

/-- When the solvers report an extension the walk returns a chain. -/
theorem walk_isSome (c : Call) (h : c.env.ReportsExtension) (es : List Entry) (s : Solver)
    (out : List Diag) : ∃ chain, (walk c es s out).1 = some chain :=
  walk_isSome_of c es (fun e _ _ s => effect_isSome c h e s) s out

/-- When the solvers report an extension the walk over two lists in a row goes through the chain and diagnostics of the first. -/
theorem walk_split (c : Call) (h : c.env.ReportsExtension) (es1 es2 : List Entry)
    (s : Solver) (out : List Diag) :
    ∃ s1 out1, walk c es1 s out = (some s1, out1) ∧
      walk c (es1 ++ es2) s out = walk c es2 s1 out1 := by
  obtain ⟨s1, h1⟩ := walk_isSome c h es1 s out
  have h2 : walk c es1 s out = (some s1, (walk c es1 s out).2) := Prod.ext h1 rfl
  refine ⟨s1, (walk c es1 s out).2, h2, ?_⟩
  rw [walk_append]
  rw [h2]

/-- A walk over entries of which the enabled ones are neither native-dialect loggers nor
loggers at all: it succeeds, adds no logger and prints nothing. -/
theorem walk_silent (c : Call) :
    ∀ (es : List Entry),
      (∀ e ∈ es, e.enabled c.cl = true →
        e.native c = none ∧ (e.plain c).1.logPath = none ∧ (e.plain c).2 = []) →
      ∀ (s : Solver) (out : List Diag),
        ∃ ds : List Decorator,
          walk c es s out = (some (wrapAll s ds), out) ∧
          ds.filterMap Decorator.logPath = [] := by
  intro es
  induction es with
  | nil => intro _ s out; exact ⟨[], rfl, rfl⟩
  | cons e es ih =>
    intro hs s out
    have hs1 : ∀ e1 ∈ es, e1.enabled c.cl = true →
        e1.native c = none ∧ (e1.plain c).1.logPath = none ∧ (e1.plain c).2 = [] :=
      fun e1 h1 => hs e1 (List.mem_cons_of_mem e h1)
    cases he : e.enabled c.cl
    · rw [walk_cons_disabled c e es s out he]; exact ih hs1 s out
    · obtain ⟨hn, hp, hq⟩ := hs e (List.mem_cons_self e es) he
      have hd : e.effect c s = (some (e.plain c).1, []) := by
        simp only [Entry.effect, hn, hq]
      rw [walk_cons_some c e es s out _ _ he hd, List.append_nil]
      obtain ⟨ds, h1, h2⟩ := ih hs1 ((e.plain c).1.wrap s) out
      exact ⟨(e.plain c).1 :: ds, h1, by simp [List.filterMap_cons, hp, h2]⟩

/-- Under `ReportsExtension` the builder returns a chain, and any relation that holds
between an enabled entry and the decorator it inserts holds along the whole chain. -/
theorem result_forall2 (c : Call) (h : c.env.ReportsExtension) (R : Entry → Decorator → Prop)
    (hR : ∀ e s d, e.enabled c.cl = true → (e.effect c s).1 = some d → R e d) :
    ∃ ds, c.result.1 = some (wrapAll c.coreSolver ds) ∧
      List.Forall₂ R (fixedOrder.filter (Entry.enabled c.cl)) ds := by
  obtain ⟨chain, hchain⟩ := walk_isSome c h fixedOrder c.coreSolver []
  obtain ⟨ds, h1, h2⟩ :=
    walk_forall2 c R fixedOrder (fun e _ => hR e) c.coreSolver [] chain hchain
  exact ⟨ds, by rw [result_eq_walk, hchain, h1], h2⟩

/-- The solvers of `smt2Env` report an extension. -/
theorem smt2Env_reportsExtension : smt2Env.ReportsExtension := fun _ _ => ⟨".smt2", rfl⟩

/-! ## Lemmas on the entries -/

/-- Notices of diagnostics printed one after the other. -/
theorem notices_append (a b : List Diag) : notices (a ++ b) = notices a ++ notices b := by
  induction a with
  | nil => rfl
  | cons x xs ih => cases x <;> simp [notices, ih]

/-- Warnings of diagnostics printed one after the other. -/
theorem warnings_append (a b : List Diag) : warnings (a ++ b) = warnings a ++ warnings b := by
  induction a with
  | nil => rfl
  | cons x xs ih => cases x <;> simp [warnings, ih]

/-- The warning of a native-dialect logger is no notice. -/
theorem notices_warning (cl : CommandLine) (n : NativeLogger) : notices (n.warning cl) = [] := by
  unfold NativeLogger.warning
  split <;> rfl

/-- The warning of a native-dialect logger, as a list of warning lines. -/
theorem warnings_warning (cl : CommandLine) (n : NativeLogger) :
    warnings (n.warning cl) =
      if n.ackermannize = true ∧ cl.CoreSolverToUse ≠ Z3_SOLVER then [ackermannizeWarning]
      else [] := by
  unfold NativeLogger.warning
  split <;> rfl

/-- The value of `getSolverPath` in terms of the reported extension. -/
theorem getSolverPath_eq (env : Env) (s : Solver) (base : String)
    (clc : Option Z3ConstraintLogConfig) (pre : Option String) :
    getSolverPath env s base clc pre =
      ((env.getConstraintLog s dummyQuery clc).2).map (fun ext => pathStem base pre ++ ext) := by
  unfold getSolverPath pathStem
  cases (env.getConstraintLog s dummyQuery clc).2 <;> rfl

/-- The decorator a native-dialect logger entry inserts, in terms of the reported extension. -/
theorem effect_native_fst (c : Call) (e : Entry) (n : NativeLogger) (s : Solver)
    (hn : e.native c = some n) :
    (e.effect c s).1 =
      ((c.env.getConstraintLog s dummyQuery (clcFor c.cl n.z3clc)).2).map
        (fun ext => Decorator.CoreSolverLangLogging (pathStem n.base n.extensionPrefix ++ ext)
          c.cl.MinQueryTimeToLog (clcFor c.cl n.z3clc)) := by
  simp only [Entry.effect, hn, getSolverPath_eq]
  cases (c.env.getConstraintLog s dummyQuery (clcFor c.cl n.z3clc)).2 <;> rfl

/-- The decorator a native-dialect logger entry inserts, in terms of the prober's result. -/
theorem effect_native_some (c : Call) (e : Entry) (n : NativeLogger) (s : Solver)
    (d : Decorator) (hn : e.native c = some n) (hd : (e.effect c s).1 = some d) :
    ∃ p, getSolverPath c.env s n.base (clcFor c.cl n.z3clc) n.extensionPrefix = some p ∧
      d = .CoreSolverLangLogging p c.cl.MinQueryTimeToLog (clcFor c.cl n.z3clc) := by
  simp only [Entry.effect, hn] at hd
  split at hd
  · rename_i p hp
    exact ⟨p, hp, (Option.some.inj hd).symm⟩
  · simp at hd

/-- Every entry inserts the decorator the fixed list names. -/
theorem effect_describes (c : Call) (e : Entry) (s : Solver) (d : Decorator)
    (hd : (e.effect c s).1 = some d) : e.Describes c d := by
  cases e
  case baseNativeLogger =>
    rw [effect_native_fst c .baseNativeLogger _ s rfl] at hd
    obtain ⟨ext, _, rfl⟩ := Option.map_eq_some'.mp hd
    exact ⟨ext, rfl⟩
  case baseNativeLoggerNoFpToIeeeBv =>
    rw [effect_native_fst c .baseNativeLoggerNoFpToIeeeBv _ s rfl] at hd
    obtain ⟨ext, _, rfl⟩ := Option.map_eq_some'.mp hd
    exact ⟨ext, rfl⟩
  case baseNativeLoggerAA =>
    rw [effect_native_fst c .baseNativeLoggerAA _ s rfl] at hd
    obtain ⟨ext, _, rfl⟩ := Option.map_eq_some'.mp hd
    exact ⟨ext, rfl⟩
  case baseNativeLoggerAANoFpToIeeeBv =>
    rw [effect_native_fst c .baseNativeLoggerAANoFpToIeeeBv _ s rfl] at hd
    obtain ⟨ext, _, rfl⟩ := Option.map_eq_some'.mp hd
    exact ⟨ext, rfl⟩
  case fullNativeLogger =>
    rw [effect_native_fst c .fullNativeLogger _ s rfl] at hd
    obtain ⟨ext, _, rfl⟩ := Option.map_eq_some'.mp hd
    exact ⟨ext, rfl⟩
  all_goals
    simp only [Entry.effect, Entry.native, Entry.plain, Option.some.injEq] at hd
    exact hd.symm

/-- Every entry's decorator writes where the entry says. -/
theorem effect_logsTo (c : Call) (e : Entry) (s : Solver) (d : Decorator)
    (hd : (e.effect c s).1 = some d) : e.LogsTo c d := by
  cases e
  case baseNativeLogger =>
    obtain ⟨p, hp, rfl⟩ := effect_native_some c .baseNativeLogger _ s d rfl hd
    exact ⟨p, rfl, _, _, _, hp⟩
  case baseNativeLoggerNoFpToIeeeBv =>
    obtain ⟨p, hp, rfl⟩ := effect_native_some c .baseNativeLoggerNoFpToIeeeBv _ s d rfl hd
    exact ⟨p, rfl, _, _, _, hp⟩
  case baseNativeLoggerAA =>
    obtain ⟨p, hp, rfl⟩ := effect_native_some c .baseNativeLoggerAA _ s d rfl hd
    exact ⟨p, rfl, _, _, _, hp⟩
  case baseNativeLoggerAANoFpToIeeeBv =>
    obtain ⟨p, hp, rfl⟩ := effect_native_some c .baseNativeLoggerAANoFpToIeeeBv _ s d rfl hd
    exact ⟨p, rfl, _, _, _, hp⟩
  case fullNativeLogger =>
    obtain ⟨p, hp, rfl⟩ := effect_native_some c .fullNativeLogger _ s d rfl hd
    exact ⟨p, rfl, _, _, _, hp⟩
  all_goals
    simp only [Entry.effect, Entry.native, Entry.plain, Option.some.injEq] at hd
    subst hd
    rfl

/-- A decorator that writes where its entry says writes to a file exactly when the entry is a logger. -/
theorem logsTo_isSome (c : Call) (e : Entry) (d : Decorator) (h : e.LogsTo c d) :
    (d.logPath).isSome = e.isLogger := by
  cases e <;> simp only [Entry.LogsTo] at h <;>
    first
      | (obtain ⟨p, hp, _⟩ := h; simp [hp, Entry.isLogger])
      | simp [h, Entry.isLogger]

/-- Along decorators that write where their entries say, the loggers are as many as the logger entries. -/
theorem length_filterMap_logPath (c : Call) (es : List Entry) (ds : List Decorator)
    (h : List.Forall₂ (Entry.LogsTo c) es ds) :
    (ds.filterMap Decorator.logPath).length = (es.filter Entry.isLogger).length := by
  induction h with
  | nil => rfl
  | @cons e d es ds hd _ ih =>
    have h1 := logsTo_isSome c e d hd
    cases hl : e.isLogger
    · rw [hl] at h1
      have h2 : d.logPath = none := by simpa using h1
      simp [List.filterMap_cons, List.filter_cons, h2, hl, ih]
    · rw [hl] at h1
      obtain ⟨p, hp⟩ := Option.isSome_iff_exists.mp h1
      simp [List.filterMap_cons, List.filter_cons, hp, hl, ih]

/-- The enabled logger entries are as many as the logging toggles set. -/
theorem enabled_loggers_length (cl : CommandLine) :
    ((fixedOrder.filter (Entry.enabled cl)).filter Entry.isLogger).length =
      (loggingToggles.filter (optionIsSet cl.queryLoggingOptions)).length := by
  simp only [fixedOrder, loggingToggles, List.filter_filter, ← List.countP_eq_length_filter,
    List.countP_cons, List.countP_nil, Entry.isLogger, Entry.enabled, Bool.true_and,
    Bool.false_and]
  simp

/-- Every entry prints the warnings `Entry.warns` gives. -/
theorem effect_warns (c : Call) (e : Entry) (s : Solver) (d : Decorator)
    (printed : List Diag) (hd : e.effect c s = (some d, printed)) :
    warnings printed = e.warns c := by
  cases e <;> simp only [Entry.effect, Entry.native, Entry.plain] at hd <;>
    first
      | (obtain ⟨_, rfl⟩ := Prod.mk.inj hd; rfl)
      | (split at hd
         · obtain ⟨_, rfl⟩ := Prod.mk.inj hd
           simp [warnings_append, warnings_warning, warnings, Entry.warns]
         · simp at hd)

/-- The warnings of a walk are those of its entries, in order. -/
theorem steps_warnings (w : Entry → List String) (es : List Entry)
    (steps : List (Decorator × List Diag))
    (h : List.Forall₂ (fun e (st : Decorator × List Diag) => warnings st.2 = w e) es steps) :
    warnings (steps.map Prod.snd).flatten = es.flatMap w := by
  induction h with
  | nil => rfl
  | cons hd _ ih => simp [warnings_append, hd, ih]

/-- Mapping over the members kept by a filter. -/
theorem filter_flatMap {α β : Type} (p : α → Bool) (w : α → List β) (l : List α) :
    (l.filter p).flatMap w = l.flatMap (fun a => if p a = true then w a else []) := by
  induction l with
  | nil => rfl
  | cons a l ih => cases h : p a <;> simp [List.filter_cons, h, ih]

/-- Under `ReportsExtension` the warnings printed are those of the enabled entries. -/
theorem result_warnings (c : Call) (h : c.env.ReportsExtension) :
    warnings c.result.2 =
      (if optionIsSet c.cl.queryLoggingOptions SOLVER_CORE_SOLVER_LANG_AA = true then
        Entry.warns c .baseNativeLoggerAA else []) ++
      (if optionIsSet c.cl.queryLoggingOptions
          SOLVER_CORE_SOLVER_LANG_AA_NO_USE_FP_TO_IEEE_BV = true then
        Entry.warns c .baseNativeLoggerAANoFpToIeeeBv else []) := by
  obtain ⟨chain, hchain⟩ := walk_isSome c h fixedOrder c.coreSolver []
  obtain ⟨steps, _, h2, h3⟩ :=
    walk_steps c (fun e _ printed => warnings printed = e.warns c) fixedOrder
      (fun e _ s d printed _ hd => effect_warns c e s d printed hd) c.coreSolver [] chain
      (walk c fixedOrder c.coreSolver []).2 (Prod.ext hchain rfl)
  rw [result_eq_walk, h2, List.nil_append, steps_warnings _ _ _ h3, filter_flatMap]
  simp [fixedOrder, Entry.warns, Entry.enabled]

/-- For a core solver other than Z3 the array-ackermannization entries insert loggers without a dialect configuration. -/
theorem effect_degraded (c : Call) (hz : c.cl.CoreSolverToUse ≠ Z3_SOLVER) (e : Entry)
    (s : Solver) (d : Decorator) (hd : (e.effect c s).1 = some d) : e.Degraded c d := by
  cases e
  case baseNativeLoggerAA =>
    obtain ⟨p, hp, rfl⟩ := effect_native_some c .baseNativeLoggerAA _ s d rfl hd
    simp only [clcFor, hz, if_false] at hp ⊢
    exact ⟨s, p, hp, rfl⟩
  case baseNativeLoggerAANoFpToIeeeBv =>
    obtain ⟨p, hp, rfl⟩ := effect_native_some c .baseNativeLoggerAANoFpToIeeeBv _ s d rfl hd
    simp only [clcFor, hz, if_false] at hp ⊢
    exact ⟨s, p, hp, rfl⟩
  all_goals exact True.intro

/-- Every native-dialect entry inserts the logger specified for it. -/
theorem effect_asSpecified (c : Call) (e : Entry) (s : Solver) (d : Decorator)
    (hd : (e.effect c s).1 = some d) : e.AsSpecified c d := by
  cases e
  case baseNativeLogger =>
    obtain ⟨p, hp, rfl⟩ := effect_native_some c .baseNativeLogger _ s d rfl hd
    exact ⟨s, p, _, rfl, hp, rfl⟩
  case baseNativeLoggerNoFpToIeeeBv =>
    obtain ⟨p, hp, rfl⟩ := effect_native_some c .baseNativeLoggerNoFpToIeeeBv _ s d rfl hd
    exact ⟨s, p, _, rfl, hp, rfl⟩
  case baseNativeLoggerAA =>
    obtain ⟨p, hp, rfl⟩ := effect_native_some c .baseNativeLoggerAA _ s d rfl hd
    exact ⟨s, p, _, rfl, hp, rfl⟩
  case baseNativeLoggerAANoFpToIeeeBv =>
    obtain ⟨p, hp, rfl⟩ := effect_native_some c .baseNativeLoggerAANoFpToIeeeBv _ s d rfl hd
    exact ⟨s, p, _, rfl, hp, rfl⟩
  case fullNativeLogger =>
    obtain ⟨p, hp, rfl⟩ := effect_native_some c .fullNativeLogger _ s d rfl hd
    exact ⟨s, p, _, rfl, hp, rfl⟩
  all_goals exact True.intro

/-- Every logger entry prints one notice, naming the logger's file; the other entries print none. -/
theorem effect_names (c : Call) (e : Entry) (s : Solver) (d : Decorator)
    (printed : List Diag) (hd : e.effect c s = (some d, printed)) :
    List.Forall₂ Names (d.logPath).toList (notices printed) := by
  cases e <;> simp only [Entry.effect, Entry.native, Entry.plain] at hd <;>
    first
      | (obtain ⟨h1, rfl⟩ := Prod.mk.inj hd
         obtain rfl := Option.some.inj h1
         first
           | exact List.Forall₂.nil
           | exact List.Forall₂.cons ⟨_, rfl⟩ List.Forall₂.nil)
      | (split at hd
         · obtain ⟨h1, rfl⟩ := Prod.mk.inj hd
           obtain rfl := Option.some.inj h1
           simp only [notices_append, notices_warning, List.nil_append]
           exact List.Forall₂.cons ⟨_, rfl⟩ List.Forall₂.nil
         · simp at hd)

/-- The notices of a walk name, in order, the files of the loggers it inserted. -/
theorem steps_names (es : List Entry) (steps : List (Decorator × List Diag))
    (h : List.Forall₂ (fun (_ : Entry) (st : Decorator × List Diag) =>
      List.Forall₂ Names (st.1.logPath).toList (notices st.2)) es steps) :
    List.Forall₂ Names ((steps.map Prod.fst).filterMap Decorator.logPath)
      (notices (steps.map Prod.snd).flatten) := by
  induction h with
  | nil => exact List.Forall₂.nil
  | @cons e st es steps hd _ ih =>
    simp only [List.map_cons, List.flatten_cons, notices_append, List.filterMap_cons]
    cases hp : st.1.logPath with
    | none =>
      rw [hp] at hd
      have : notices st.2 = [] := by simpa using hd
      simpa [this] using ih
    | some p =>
      rw [hp] at hd
      exact List.rel_append hd ih

/-- The solvers of `noOracleEnv` report an extension. -/
theorem noOracleEnv_reportsExtension : noOracleEnv.ReportsExtension := fun _ _ => ⟨".smt2", rfl⟩

/-- When the solvers report an extension and the alternate-backend selector is set, the
chain returned is the validating decorator made with what `createCoreSolver` yields,
around the decorators of the first fifteen entries. -/
theorem result_cross_checked (c : Call) (h : c.env.ReportsExtension)
    (hsel : c.cl.DebugCrossCheckCoreSolverWith ≠ NO_SOLVER) :
    ∃ ds : List Decorator,
      List.Forall₂ (Entry.Describes c) ((fixedOrder.take 15).filter (Entry.enabled c.cl)) ds ∧
      c.result.1 = some (createValidatingSolver (wrapAll c.coreSolver ds)
        (c.env.createCoreSolver c.cl.DebugCrossCheckCoreSolverWith)) := by
  have hsplit : fixedOrder = fixedOrder.take 15 ++ [Entry.crossCheckValidating] := rfl
  obtain ⟨s1, out1, hw1, hw⟩ :=
    walk_split c h (fixedOrder.take 15) [Entry.crossCheckValidating] c.coreSolver []
  obtain ⟨ds, hb1, hb2⟩ :=
    walk_forall2 c (Entry.Describes c) (fixedOrder.take 15)
      (fun e _ s d _ hd => effect_describes c e s d hd) c.coreSolver [] s1 (by rw [hw1])
  refine ⟨ds, hb2, ?_⟩
  rw [walk_cons_some c .crossCheckValidating _ s1 out1
    (.Validating (c.env.createCoreSolver c.cl.DebugCrossCheckCoreSolverWith)) []
    (by simpa [Entry.enabled] using hsel) rfl] at hw
  rw [result_eq_walk, hsplit, hw, walk_nil, hb1]
  rfl

/-- Wrapping by two lists of decorators in a row. -/
theorem wrapAll_append (s : Solver) (ds1 ds2 : List Decorator) :
    wrapAll s (ds1 ++ ds2) = wrapAll (wrapAll s ds1) ds2 := by
  simp [wrapAll, List.foldl_append]

/-- The walk over the two caches and independence splitting. -/
theorem walk_cacheLayers (c : Call) (s : Solver) (out : List Diag) :
    walk c [Entry.cexCaching, Entry.caching, Entry.independence] s out =
      (some (wrapAll s (cacheLayers c.cl)), out) := by
  simp only [walk, Entry.enabled, Entry.effect, Entry.native, Entry.plain, cacheLayers]
  cases c.cl.UseCexCache <;> cases c.cl.UseCache <;> cases c.cl.UseIndependentSolver <;>
    simp [wrapAll]

/-- When the solvers report an extension, the chain returned is the base solver under the
decorators of the first eight entries, then the enabled ones among the two caches and
independence splitting, then the decorators of the last five entries. -/
theorem result_cacheLayers (c : Call) (h : c.env.ReportsExtension) :
    ∃ inner outer : List Decorator,
      c.result.1 = some (wrapAll c.coreSolver (inner ++ (cacheLayers c.cl ++ outer))) ∧
      List.Forall₂ (Entry.Describes c) ((fixedOrder.take 8).filter (Entry.enabled c.cl)) inner ∧
      List.Forall₂ (Entry.Describes c) ((fixedOrder.drop 11).filter (Entry.enabled c.cl)) outer := by
  have hsplit : fixedOrder = fixedOrder.take 8 ++
      ([Entry.cexCaching, Entry.caching, Entry.independence] ++ fixedOrder.drop 11) := rfl
  obtain ⟨s1, out1, hw1, hw⟩ :=
    walk_split c h (fixedOrder.take 8)
      ([Entry.cexCaching, Entry.caching, Entry.independence] ++ fixedOrder.drop 11)
      c.coreSolver []
  obtain ⟨inner, hb1, hb2⟩ :=
    walk_forall2 c (Entry.Describes c) (fixedOrder.take 8)
      (fun e _ s d _ hd => effect_describes c e s d hd) c.coreSolver [] s1 (by rw [hw1])
  have hmid := walk_append c [Entry.cexCaching, Entry.caching, Entry.independence]
    (fixedOrder.drop 11) s1 out1
  rw [walk_cacheLayers] at hmid
  rw [hmid] at hw
  obtain ⟨chain, hchain⟩ := walk_isSome c h (fixedOrder.drop 11)
    (wrapAll s1 (cacheLayers c.cl)) out1
  obtain ⟨outer, ha1, ha2⟩ :=
    walk_forall2 c (Entry.Describes c) (fixedOrder.drop 11)
      (fun e _ s d _ hd => effect_describes c e s d hd) _ _ chain hchain
  refine ⟨inner, outer, ?_, hb2, ha2⟩
  rw [result_eq_walk, hsplit, hw]
  show (walk c (fixedOrder.drop 11) (wrapAll s1 (cacheLayers c.cl)) out1).1 = _
  rw [hchain, ha1, hb1, wrapAll_append, wrapAll_append]

/-- A walk that returns a chain inserted its decorators stepwise, and a relation that
holds of every enabled entry, the working solver at its turn and the decorator it
inserts holds stepwise. -/
theorem walk_stepwise (c : Call) (R : Entry → Solver → Decorator → Prop)
    (hR : ∀ e s d, e.enabled c.cl = true → (e.effect c s).1 = some d → R e s d) :
    ∀ (es : List Entry) (s : Solver) (out : List Diag) (chain : Solver),
      (walk c es s out).1 = some chain →
      ∃ ds, chain = wrapAll s ds ∧ Stepwise R s (es.filter (Entry.enabled c.cl)) ds := by
  intro es
  induction es with
  | nil =>
    intro s out chain h
    refine ⟨[], ?_, True.intro⟩
    simpa [walk_nil] using h.symm
  | cons e es ih =>
    intro s out chain h
    cases he : e.enabled c.cl
    · rw [walk_cons_disabled c e es s out he] at h
      obtain ⟨ds, h1, h2⟩ := ih s out chain h
      exact ⟨ds, h1, by simpa [List.filter_cons, he] using h2⟩
    · rcases hd : e.effect c s with ⟨_ | d, printed⟩
      · rw [walk_cons_none c e es s out printed he hd] at h
        simp at h
      · rw [walk_cons_some c e es s out d printed he hd] at h
        obtain ⟨ds, h1, h2⟩ := ih _ _ chain h
        refine ⟨d :: ds, by rw [wrapAll_cons]; exact h1, ?_⟩
        simp only [List.filter_cons, he, if_true]
        exact ⟨hR e s d he (by rw [hd]), h2⟩

/-- Every native-dialect entry probes the working solver, with the configuration it
creates its logger with. -/
theorem effect_probesWrapped (c : Call) (e : Entry) (s : Solver) (d : Decorator)
    (hd : (e.effect c s).1 = some d) : e.ProbesWrapped c s d := by
  cases e
  case baseNativeLogger =>
    obtain ⟨p, hp, rfl⟩ := effect_native_some c .baseNativeLogger _ s d rfl hd
    exact ⟨p, _, hp, rfl⟩
  case baseNativeLoggerNoFpToIeeeBv =>
    obtain ⟨p, hp, rfl⟩ := effect_native_some c .baseNativeLoggerNoFpToIeeeBv _ s d rfl hd
    exact ⟨p, _, hp, rfl⟩
  case baseNativeLoggerAA =>
    obtain ⟨p, hp, rfl⟩ := effect_native_some c .baseNativeLoggerAA _ s d rfl hd
    exact ⟨p, _, hp, rfl⟩
  case baseNativeLoggerAANoFpToIeeeBv =>
    obtain ⟨p, hp, rfl⟩ := effect_native_some c .baseNativeLoggerAANoFpToIeeeBv _ s d rfl hd
    exact ⟨p, _, hp, rfl⟩
  case fullNativeLogger =>
    obtain ⟨p, hp, rfl⟩ := effect_native_some c .fullNativeLogger _ s d rfl hd
    exact ⟨p, _, hp, rfl⟩
  all_goals exact True.intro

/-- The solvers of `depthEnv` report an extension. -/
theorem depthEnv_reportsExtension : depthEnv.ReportsExtension := by
  intro s clc
  simp only [depthEnv]
  split <;> exact ⟨_, rfl⟩

/-- `getSolverPathRef` returns the path `getSolverPath` returns, and `base` as it was. -/
theorem getSolverPathRef_eq (env : Env) (solver : Solver) (base : String)
    (clc : Option Z3ConstraintLogConfig) (extensionPrefix : Option String) :
    getSolverPathRef env solver base clc extensionPrefix =
      (getSolverPath env solver base clc extensionPrefix).map (fun p => (p, base)) := by
  unfold getSolverPathRef getSolverPath
  cases (env.getConstraintLog solver dummyQuery clc).2 <;> rfl

/-- Two sequences with the same first step and the same continuation. -/
theorem Build.bind_congr {α β : Type} (m : Build α) (k1 k2 : α → Build β)
    (h : ∀ a, k1 a = k2 a) : m >>= k1 = m >>= k2 := by
  rw [funext h]

/-- A first step that also hands back an unchanged value `b`. -/
theorem Build.bind_congr_ref {α β γ : Type} (b : γ) (m1 : Build (α × γ)) (m2 : Build α)
    (k1 : α × γ → Build β) (k2 : α → Build β)
    (h1 : ∀ out, m1.run out = ((m2.run out).1.map (fun a => (a, b)), (m2.run out).2))
    (h2 : ∀ a, k1 (a, b) = k2 a) : m1 >>= k1 = m2 >>= k2 := by
  funext out
  show (m1 >>= k1).run out = (m2 >>= k2).run out
  rw [Build.run_bind, Build.run_bind, h1 out]
  rcases m2.run out with ⟨_ | a, out1⟩
  · rfl
  · simp [h2]

/-- Handing the two native-dialect path variables to `getSolverPath` by reference and
reading them back changes nothing: the builder with the reference made explicit is the
builder. -/
theorem constructSolverChainRef_eq (cl : CommandLine) (env : Env) (coreSolver : Solver)
    (a1 a2 a3 a4 a5 a6 : String) :
    constructSolverChainRef cl env coreSolver a1 a2 a3 a4 a5 a6 =
      constructSolverChain cl env coreSolver a1 a2 a3 a4 a5 a6 := by
  unfold constructSolverChainRef constructSolverChain
  apply Build.bind_congr
  intro s
  apply Build.bind_congr
  intro s
  apply Build.bind_congr_ref a6
  · intro out
    simp only [getSolverPathRef_eq]
    split
    · generalize getSolverPath _ _ _ _ _ = r
      cases r <;> rfl
    · rfl
  intro s
  apply Build.bind_congr_ref a6
  · intro out
    simp only [getSolverPathRef_eq]
    split
    · generalize getSolverPath _ _ _ _ _ = r
      cases r <;> rfl
    · rfl
  intro s
  apply Build.bind_congr_ref a6
  · intro out
    simp only [getSolverPathRef_eq]
    split
    · by_cases hz : cl.CoreSolverToUse = Z3_SOLVER <;>
        simp only [hz, if_true, if_false, Build.run_bind, Build.run, errs, pure, bind, defined] <;>
        (generalize getSolverPath _ _ _ _ _ = r; cases r <;> rfl)
    · rfl
  intro s
  apply Build.bind_congr_ref a6
  · intro out
    simp only [getSolverPathRef_eq]
    split
    · by_cases hz : cl.CoreSolverToUse = Z3_SOLVER <;>
        simp only [hz, if_true, if_false, Build.run_bind, Build.run, errs, pure, bind, defined] <;>
        (generalize getSolverPath _ _ _ _ _ = r; cases r <;> rfl)
    · rfl
  intro s
  apply Build.bind_congr
  intro s
  apply Build.bind_congr
  intro s
  apply Build.bind_congr
  intro s
  apply Build.bind_congr
  intro s
  apply Build.bind_congr
  intro s
  apply Build.bind_congr
  intro s
  apply Build.bind_congr
  intro s
  apply Build.bind_congr
  intro s
  apply Build.bind_congr_ref a5
  · intro out
    simp only [getSolverPathRef_eq]
    split
    · generalize getSolverPath _ _ _ _ _ = r
      cases r <;> rfl
    · rfl
  intro s
  apply Build.bind_congr
  intro s
  rfl

/-- The file of every base-scoped native-dialect logger starts with the path input of the
call, followed by the extension prefix of its own entry. -/
theorem effect_builtOnBaseInput (c : Call) (e : Entry) (s : Solver) (d : Decorator)
    (hd : (e.effect c s).1 = some d) : e.BuiltOnBaseInput c d := by
  have h := effect_describes c e s d hd
  cases e
  case baseNativeLogger => obtain ⟨ext, rfl⟩ := h; exact ⟨ext, rfl⟩
  case baseNativeLoggerNoFpToIeeeBv => obtain ⟨ext, rfl⟩ := h; exact ⟨ext, rfl⟩
  case baseNativeLoggerAA => obtain ⟨ext, rfl⟩ := h; exact ⟨ext, rfl⟩
  case baseNativeLoggerAANoFpToIeeeBv => obtain ⟨ext, rfl⟩ := h; exact ⟨ext, rfl⟩
  all_goals exact True.intro

/-- A walk over entries none of which is enabled leaves the solver and the diagnostics as
they are. -/
theorem walk_all_disabled (c : Call) :
    ∀ (es : List Entry), (∀ e ∈ es, e.enabled c.cl = false) →
      ∀ (s : Solver) (out : List Diag), walk c es s out = (some s, out) := by
  intro es
  induction es with
  | nil => intro _ s out; rfl
  | cons e es ih =>
    intro hoff s out
    rw [walk_cons_disabled c e es s out (hoff e (List.mem_cons_self e es))]
    exact ih (fun e1 h1 => hoff e1 (List.mem_cons_of_mem e h1)) s out

/-- A string that holds no NUL character is printed whole. -/
theorem c_str_of_no_nul (path : String) (h : Char.ofNat 0 ∉ path.data) : c_str path = path := by
  have h1 : path.data.takeWhile (fun ch => ch != Char.ofNat 0) = path.data := by
    rw [List.takeWhile_eq_self_iff]
    intro x hx
    simp only [bne_iff_ne, ne_eq]
    intro hx0
    exact h (hx0 ▸ hx)
  unfold c_str
  rw [h1]

/-- A walk without a result stopped at an enabled entry that had no decorator to insert,
after the entries before it had run to their end. -/
theorem walk_none (c : Call) :
    ∀ (es : List Entry) (s0 : Solver) (out0 : List Diag),
      (walk c es s0 out0).1 = none →
      ∃ (before : List Entry) (e : Entry) (after : List Entry) (s : Solver) (out : List Diag),
        es = before ++ e :: after ∧ e.enabled c.cl = true ∧
        walk c before s0 out0 = (some s, out) ∧ (e.effect c s).1 = none := by
  intro es
  induction es with
  | nil => intro s0 out0 h; simp [walk_nil] at h
  | cons e es ih =>
    intro s0 out0 h
    cases he : e.enabled c.cl
    · rw [walk_cons_disabled c e es s0 out0 he] at h
      obtain ⟨before, e1, after, s, out, h1, h2, h3, h4⟩ := ih s0 out0 h
      refine ⟨e :: before, e1, after, s, out, by rw [h1]; rfl, h2, ?_, h4⟩
      rw [walk_cons_disabled c e before s0 out0 he]; exact h3
    · rcases hd : e.effect c s0 with ⟨_ | d, printed⟩
      · exact ⟨[], e, es, s0, out0, rfl, he, rfl, by rw [hd]⟩
      · rw [walk_cons_some c e es s0 out0 d printed he hd] at h
        obtain ⟨before, e1, after, s, out, h1, h2, h3, h4⟩ := ih _ _ h
        refine ⟨e :: before, e1, after, s, out, by rw [h1]; rfl, h2, ?_, h4⟩
        rw [walk_cons_some c e before s0 out0 d printed he hd]; exact h3

/-- An entry has no decorator to insert exactly when the prober is defeated at it. -/
theorem effect_none_iff_defeated (c : Call) (e : Entry) (s : Solver) :
    (e.effect c s).1 = none ↔ e.Defeated c s := by
  cases e <;> simp only [Entry.effect, Entry.native, Entry.plain, Entry.Defeated] <;>
    first
      | (split <;> simp_all)
      | simp

/-- An entry at which the prober is defeated has printed its warnings and nothing else. -/
theorem effect_of_defeated (c : Call) (e : Entry) (s : Solver) (h : e.Defeated c s) :
    e.effect c s = (none, (e.warns c).map Diag.errs) := by
  cases e <;> simp only [Entry.Defeated] at h <;>
    first
      | exact h.elim
      | (simp only [Entry.effect, Entry.native, h, NativeLogger.warning, Entry.warns]
         first
           | rfl
           | (by_cases hz : c.cl.CoreSolverToUse = Z3_SOLVER <;> simp [hz, ackermannizeWarning]))

/-! ## The claims -/

/-- C1. For every configuration the chain returned by `constructSolverChain` is the base
solver, innermost, wrapped by one decorator for each enabled entry of the fixed list of
sixteen, in the order of that list, each decorator being the one the list names; and a
chain is returned whenever the solvers report an extension when probed. -/
theorem C1_chain_is_enabled_part_of_fixed_order (c : Call) :
    (c.env.ReportsExtension → ∃ chain, c.result.1 = some chain) ∧
    (∀ chain, c.result.1 = some chain →
      ∃ ds : List Decorator,
        chain = wrapAll c.coreSolver ds ∧
        ds.length = (fixedOrder.filter (Entry.enabled c.cl)).length ∧
        List.Forall₂ (Entry.Describes c) (fixedOrder.filter (Entry.enabled c.cl)) ds) := by
  refine ⟨fun h => ?_, fun chain hchain => ?_⟩
  · rw [result_eq_walk]
    exact walk_isSome c h fixedOrder c.coreSolver []
  · rw [result_eq_walk] at hchain
    obtain ⟨ds, h1, h2⟩ :=
      walk_forall2 c (Entry.Describes c) fixedOrder
        (fun e _ s d _ hd => effect_describes c e s d hd) c.coreSolver [] chain hchain
    exact ⟨ds, h1, h2.length_eq.symm, h2⟩

/-- C1 at a sample call: independence splitting, the base-scoped KQuery logger and
cross-checking enabled. -/
theorem C1_chain_is_enabled_part_of_fixed_order_witness :
    smt2Env.ReportsExtension ∧
    (sampleCall { allOff Z3_SOLVER with
        queryLoggingOptions := [SOLVER_KQUERY], UseIndependentSolver := true,
        DebugCrossCheckCoreSolverWith := OTHER_SOLVER 0 } smt2Env).result.1 =
      some (createValidatingSolver
        (createIndependentSolver (createKQueryLoggingSolver (Solver.core 0) "base.kquery" 0))
        (some (Solver.core 1))) ∧
    ∃ ds : List Decorator,
      createValidatingSolver
        (createIndependentSolver (createKQueryLoggingSolver (Solver.core 0) "base.kquery" 0))
        (some (Solver.core 1)) = wrapAll (Solver.core 0) ds ∧
      ds.length = 3 := by
  refine ⟨smt2Env_reportsExtension, ?_, ?_⟩
  · rw [result_eq_walk]; rfl
  · obtain ⟨ds, h1, h2, _⟩ :=
      (C1_chain_is_enabled_part_of_fixed_order (sampleCall { allOff Z3_SOLVER with
        queryLoggingOptions := [SOLVER_KQUERY], UseIndependentSolver := true,
        DebugCrossCheckCoreSolverWith := OTHER_SOLVER 0 } smt2Env)).2 _
        (by rw [result_eq_walk]; rfl)
    exact ⟨ds, h1, h2⟩

/-- C2. When the solver reports the extension `ext` for the dummy query under the given
configuration, `getSolverPath` returns `base ++ extensionPrefix ++ ext` if an extension
prefix is given and `base ++ ext` if none is; the rendered text plays no part: any other
collaborator reporting the same extension yields the same path. -/
theorem C2_getSolverPath_value (env : Env) (solver : Solver) (base : String)
    (clc : Option Z3ConstraintLogConfig) (ext : String)
    (hext : (env.getConstraintLog solver dummyQuery clc).2 = some ext) :
    (∀ pre : String, getSolverPath env solver base clc (some pre) = some (base ++ pre ++ ext)) ∧
    getSolverPath env solver base clc none = some (base ++ ext) ∧
    (∀ env2 : Env, (env2.getConstraintLog solver dummyQuery clc).2 = some ext →
      ∀ pre : Option String,
        getSolverPath env2 solver base clc pre = getSolverPath env solver base clc pre) := by
  refine ⟨fun pre => ?_, ?_, fun env2 h2 pre => ?_⟩
  · simp [getSolverPath, hext]
  · simp [getSolverPath, hext]
  · simp [getSolverPath, hext, h2]

/-- C2 at a sample input. -/
theorem C2_getSolverPath_value_witness :
    (smt2Env.getConstraintLog (Solver.core 0) dummyQuery none).2 = some ".smt2" ∧
    getSolverPath smt2Env (Solver.core 0) "q" none (some "aa.") = some ("q" ++ "aa." ++ ".smt2") ∧
    getSolverPath smt2Env (Solver.core 0) "q" none none = some ("q" ++ ".smt2") ∧
    getSolverPath nullEnv (Solver.core 0) "q" none none = none :=
  ⟨rfl, (C2_getSolverPath_value smt2Env (Solver.core 0) "q" none ".smt2" rfl).1 "aa.",
    (C2_getSolverPath_value smt2Env (Solver.core 0) "q" none ".smt2" rfl).2.1, rfl⟩

/-- C3, as the code has it.  When the only logging toggle set is the base-scoped
native-dialect `aa.no_fp_to_ieee_bv` one, the native-dialect base path is `"q"` and the
base solver reports the extension `".smt2"`, the builder returns a chain whose innermost
decorator is the native-dialect logger created with the path
`"qaa.no_fp_to_ieee_bv..smt2"`: base path, extension prefix and extension are joined as
they are, and the prefix ends with a dot.  No other decorator of the chain is a logger,
and the only notice printed names that path. -/
theorem C3_end_to_end_log_path (c : Call)
    (honly : ∀ o, optionIsSet c.cl.queryLoggingOptions o = true ↔
      o = SOLVER_CORE_SOLVER_LANG_AA_NO_USE_FP_TO_IEEE_BV)
    (hbase : c.baseCoreSolverLangLogPath = "q")
    (hext : ∀ clc, (c.env.getConstraintLog c.coreSolver dummyQuery clc).2 = some ".smt2") :
    ∃ others : List Decorator,
      c.result.1 = some (wrapAll
        (createCoreSolverLangLoggingSolver c.coreSolver "qaa.no_fp_to_ieee_bv..smt2"
          c.cl.MinQueryTimeToLog (clcFor c.cl ⟨true, false⟩)) others) ∧
      others.filterMap Decorator.logPath = [] ∧
      notices c.result.2 =
        ["Logging all (might be ackermannized) queries avoiding use of fp.to_ieee_bv in core solver's language to "
          ++ "qaa.no_fp_to_ieee_bv..smt2" ++ "\n"] := by
  have hq : ("q" ++ "aa.no_fp_to_ieee_bv." ++ ".smt2" : String) = "qaa.no_fp_to_ieee_bv..smt2" := by
    decide
  have hoff : ∀ o, o ≠ SOLVER_CORE_SOLVER_LANG_AA_NO_USE_FP_TO_IEEE_BV →
      optionIsSet c.cl.queryLoggingOptions o = false := by
    intro o ho
    cases h : optionIsSet c.cl.queryLoggingOptions o
    · rfl
    · exact absurd ((honly o).mp h) ho
  have hon := (honly SOLVER_CORE_SOLVER_LANG_AA_NO_USE_FP_TO_IEEE_BV).mpr rfl
  -- the one enabled logger, acting on the base solver
  obtain ⟨printed, heff, hprinted⟩ : ∃ printed,
      Entry.effect c .baseNativeLoggerAANoFpToIeeeBv c.coreSolver =
        (some (.CoreSolverLangLogging "qaa.no_fp_to_ieee_bv..smt2" c.cl.MinQueryTimeToLog
          (clcFor c.cl ⟨true, false⟩)), printed) ∧
      notices printed =
        ["Logging all (might be ackermannized) queries avoiding use of fp.to_ieee_bv in core solver's language to "
          ++ "qaa.no_fp_to_ieee_bv..smt2" ++ "\n"] := by
    refine ⟨(Entry.effect c .baseNativeLoggerAANoFpToIeeeBv c.coreSolver).2, ?_, ?_⟩
    · simp only [Entry.effect, Entry.native, getSolverPath, hext, hbase, hq]
    · have hc : c_str "qaa.no_fp_to_ieee_bv..smt2" = "qaa.no_fp_to_ieee_bv..smt2" := by decide
      simp only [Entry.effect, Entry.native, getSolverPath, hext, hbase, hq, hc]
      simp [notices_append, notices_warning, notices]
  -- the entries after it: none that is enabled is a logger
  have hrest : ∀ e ∈ fixedOrder.drop 6, e.enabled c.cl = true →
      e.native c = none ∧ (e.plain c).1.logPath = none ∧ (e.plain c).2 = [] := by
    intro e he hen
    simp only [fixedOrder, List.drop_succ_cons, List.drop_zero, List.mem_cons,
      List.mem_singleton, List.not_mem_nil, or_false] at he
    rcases he with rfl | rfl | rfl | rfl | rfl | rfl | rfl | rfl | rfl | rfl <;>
      first
        | (simp [Entry.enabled, hoff] at hen; done)
        | exact ⟨rfl, rfl, rfl⟩
  obtain ⟨others, hw, hnone⟩ := walk_silent c (fixedOrder.drop 6) hrest
    (createCoreSolverLangLoggingSolver c.coreSolver "qaa.no_fp_to_ieee_bv..smt2"
      c.cl.MinQueryTimeToLog (clcFor c.cl ⟨true, false⟩)) ([] ++ printed)
  have hwalk : c.result = (some (wrapAll
      (createCoreSolverLangLoggingSolver c.coreSolver "qaa.no_fp_to_ieee_bv..smt2"
        c.cl.MinQueryTimeToLog (clcFor c.cl ⟨true, false⟩)) others), [] ++ printed) := by
    rw [result_eq_walk, ← hw]
    unfold fixedOrder
    rw [walk_cons_disabled c _ _ _ _ (by simp [Entry.enabled, hoff]),
      walk_cons_disabled c _ _ _ _ (by simp [Entry.enabled, hoff]),
      walk_cons_disabled c _ _ _ _ (by simp [Entry.enabled, hoff]),
      walk_cons_disabled c _ _ _ _ (by simp [Entry.enabled, hoff]),
      walk_cons_disabled c _ _ _ _ (by simp [Entry.enabled, hoff]),
      walk_cons_some c _ _ _ _ _ _ (by simp [Entry.enabled, hon]) heff]
    rfl
  refine ⟨others, by rw [hwalk], hnone, ?_⟩
  rw [hwalk]
  simpa using hprinted

/-- C3 at the sample call `aaNoFpCall`. -/
theorem C3_end_to_end_log_path_witness :
    (∀ o, optionIsSet aaNoFpCall.cl.queryLoggingOptions o = true ↔
      o = SOLVER_CORE_SOLVER_LANG_AA_NO_USE_FP_TO_IEEE_BV) ∧
    aaNoFpCall.baseCoreSolverLangLogPath = "q" ∧
    (∀ clc, (aaNoFpCall.env.getConstraintLog aaNoFpCall.coreSolver dummyQuery clc).2
      = some ".smt2") ∧
    ∃ others : List Decorator,
      aaNoFpCall.result.1 = some (wrapAll
        (createCoreSolverLangLoggingSolver aaNoFpCall.coreSolver "qaa.no_fp_to_ieee_bv..smt2"
          aaNoFpCall.cl.MinQueryTimeToLog (clcFor aaNoFpCall.cl ⟨true, false⟩)) others) ∧
      others.filterMap Decorator.logPath = [] ∧
      notices aaNoFpCall.result.2 =
        ["Logging all (might be ackermannized) queries avoiding use of fp.to_ieee_bv in core solver's language to "
          ++ "qaa.no_fp_to_ieee_bv..smt2" ++ "\n"] :=
  ⟨by intro o; cases o <;> decide, rfl, fun _ => rfl,
    C3_end_to_end_log_path aaNoFpCall (by intro o; cases o <;> decide) rfl (fun _ => rfl)⟩

/-- C3 as stated fails.  At the sample call `aaNoFpCall` the only logging toggle set is
the base-scoped native-dialect `aa.no_fp_to_ieee_bv` one, the native-dialect base path is
`"q"` and the solver reports `".smt2"`; the logger is created with the path
`"qaa.no_fp_to_ieee_bv..smt2"`, which is not `"qaa.no_fp_to_ieee_bv.smt2"`. -/
theorem C3_stated_path_counterexample :
    (∀ o, optionIsSet aaNoFpCall.cl.queryLoggingOptions o = true ↔
      o = SOLVER_CORE_SOLVER_LANG_AA_NO_USE_FP_TO_IEEE_BV) ∧
    aaNoFpCall.baseCoreSolverLangLogPath = "q" ∧
    (∀ clc, (aaNoFpCall.env.getConstraintLog aaNoFpCall.coreSolver dummyQuery clc).2
      = some ".smt2") ∧
    aaNoFpCall.result.1 =
      some (createCoreSolverLangLoggingSolver (Solver.core 0) "qaa.no_fp_to_ieee_bv..smt2" 0 none) ∧
    aaNoFpCall.result.1 ≠
      some (createCoreSolverLangLoggingSolver (Solver.core 0) "qaa.no_fp_to_ieee_bv.smt2" 0 none) := by
  have hres : aaNoFpCall.result.1 =
      some (createCoreSolverLangLoggingSolver (Solver.core 0) "qaa.no_fp_to_ieee_bv..smt2" 0 none) := by
    rw [result_eq_walk]; rfl
  refine ⟨by intro o; cases o <;> decide, rfl, fun _ => rfl, hres, ?_⟩
  rw [hres]
  intro h
  injection h with h
  injection h with _ hp
  exact absurd hp (by decide)

/-- C4. For every setting of the nine logging toggles, when the probed solvers report an
extension the builder returns a chain in which the number of logging decorators equals
the number of toggles set, and every decorator writes where its entry says: a
fixed-dialect logger to its path input, taken as it is; a base-scoped native-dialect
logger to a result of `getSolverPath` on the base-scoped native path input; the full
native-dialect logger to a result of `getSolverPath` on the full native path input; and
the other decorators nowhere. -/
theorem C4_one_logger_per_toggle_at_its_path (c : Call) (h : c.env.ReportsExtension) :
    ∃ ds : List Decorator,
      c.result.1 = some (wrapAll c.coreSolver ds) ∧
      (ds.filterMap Decorator.logPath).length =
        (loggingToggles.filter (optionIsSet c.cl.queryLoggingOptions)).length ∧
      List.Forall₂ (Entry.LogsTo c) (fixedOrder.filter (Entry.enabled c.cl)) ds := by
  obtain ⟨ds, h1, h2⟩ := result_forall2 c h (Entry.LogsTo c)
    (fun e s d _ hd => effect_logsTo c e s d hd)
  exact ⟨ds, h1, by rw [length_filterMap_logPath c _ ds h2, enabled_loggers_length], h2⟩

/-- C4 at a sample call with three logging toggles set. -/
theorem C4_one_logger_per_toggle_at_its_path_witness :
    smt2Env.ReportsExtension ∧
    (loggingToggles.filter (optionIsSet threeLoggersCall.cl.queryLoggingOptions)).length = 3 ∧
    threeLoggersCall.result.1 =
      some (createCoreSolverLangLoggingSolver
        (createCoreSolverLangLoggingSolver
          (createSMTLIBLoggingSolver (Solver.core 0) "base.smt2" 0)
          "qaa..smt2" 0 (some ⟨true, true⟩))
        "all..smt2" 0 (some ⟨false, true⟩)) ∧
    ∃ ds : List Decorator,
      threeLoggersCall.result.1 = some (wrapAll threeLoggersCall.coreSolver ds) ∧
      (ds.filterMap Decorator.logPath).length =
        (loggingToggles.filter (optionIsSet threeLoggersCall.cl.queryLoggingOptions)).length ∧
      List.Forall₂ (Entry.LogsTo threeLoggersCall)
        (fixedOrder.filter (Entry.enabled threeLoggersCall.cl)) ds :=
  ⟨smt2Env_reportsExtension, by decide, by rw [result_eq_walk]; rfl,
    C4_one_logger_per_toggle_at_its_path threeLoggersCall smt2Env_reportsExtension⟩

/-- C5. Whenever debug cross-validation is enabled, whatever the other toggles, the chain
returned holds a validating decorator whose oracle is the base solver passed to the
builder and which wraps the working chain built so far: the base solver under the
decorators of the enabled entries that precede it in the fixed list.  The decorators of
the enabled entries that follow it are around it. -/
theorem C5_debug_validation_oracle_is_base (c : Call) (h : c.env.ReportsExtension)
    (hdebug : c.cl.DebugValidateSolver = true) :
    ∃ before after : List Decorator,
      c.result.1 = some (wrapAll
        (createValidatingSolver (wrapAll c.coreSolver before) (some c.coreSolver)) after) ∧
      List.Forall₂ (Entry.Describes c) ((fixedOrder.take 11).filter (Entry.enabled c.cl)) before ∧
      List.Forall₂ (Entry.Describes c) ((fixedOrder.drop 12).filter (Entry.enabled c.cl)) after := by
  have hsplit : fixedOrder = fixedOrder.take 11 ++ (Entry.debugValidating :: fixedOrder.drop 12) :=
    rfl
  obtain ⟨s1, out1, hw1, hw⟩ :=
    walk_split c h (fixedOrder.take 11) (Entry.debugValidating :: fixedOrder.drop 12)
      c.coreSolver []
  obtain ⟨before, hb1, hb2⟩ :=
    walk_forall2 c (Entry.Describes c) (fixedOrder.take 11)
      (fun e _ s d _ hd => effect_describes c e s d hd) c.coreSolver [] s1 (by rw [hw1])
  rw [walk_cons_some c .debugValidating _ s1 out1 (.Validating (some c.coreSolver)) []
    (by simpa [Entry.enabled] using hdebug) rfl] at hw
  obtain ⟨chain, hchain⟩ := walk_isSome c h (fixedOrder.drop 12)
    ((Decorator.Validating (some c.coreSolver)).wrap s1) (out1 ++ [])
  obtain ⟨after, ha1, ha2⟩ :=
    walk_forall2 c (Entry.Describes c) (fixedOrder.drop 12)
      (fun e _ s d _ hd => effect_describes c e s d hd) _ _ chain hchain
  refine ⟨before, after, ?_, hb2, ha2⟩
  rw [result_eq_walk, hsplit, hw, hchain, ha1, hb1]
  rfl

/-- C5 at a sample call with debug cross-validation, both caches and the full KQuery
logger enabled. -/
theorem C5_debug_validation_oracle_is_base_witness :
    smt2Env.ReportsExtension ∧ debugCall.cl.DebugValidateSolver = true ∧
    debugCall.result.1 =
      some (createKQueryLoggingSolver
        (createValidatingSolver
          (createCachingSolver (createCexCachingSolver (Solver.core 0)))
          (some (Solver.core 0)))
        "all.kquery" 0) ∧
    ∃ before after : List Decorator,
      debugCall.result.1 = some (wrapAll
        (createValidatingSolver (wrapAll debugCall.coreSolver before)
          (some debugCall.coreSolver)) after) ∧
      List.Forall₂ (Entry.Describes debugCall)
        ((fixedOrder.take 11).filter (Entry.enabled debugCall.cl)) before ∧
      List.Forall₂ (Entry.Describes debugCall)
        ((fixedOrder.drop 12).filter (Entry.enabled debugCall.cl)) after :=
  ⟨smt2Env_reportsExtension, rfl, by rw [result_eq_walk]; rfl,
    C5_debug_validation_oracle_is_base debugCall smt2Env_reportsExtension rfl⟩

/-- C6. The chain returned is the base solver under the decorators `ds` of the enabled
entries among the first fifteen of the fixed list, and nothing more, when the
alternate-backend selector is `NO_SOLVER`; when the selector is anything else, the chain
is one validating decorator around all of that, outermost, whose oracle is what
`createCoreSolver` builds for the selector (not the base solver, which is the oracle of
the debug validating decorator alone). -/
theorem C6_cross_check_outermost (c : Call) (h : c.env.ReportsExtension) :
    ∃ ds : List Decorator,
      List.Forall₂ (Entry.Describes c) ((fixedOrder.take 15).filter (Entry.enabled c.cl)) ds ∧
      (c.cl.DebugCrossCheckCoreSolverWith ≠ NO_SOLVER →
        c.result.1 = some (createValidatingSolver (wrapAll c.coreSolver ds)
          (c.env.createCoreSolver c.cl.DebugCrossCheckCoreSolverWith))) ∧
      (c.cl.DebugCrossCheckCoreSolverWith = NO_SOLVER →
        c.result.1 = some (wrapAll c.coreSolver ds)) := by
  have hsplit : fixedOrder = fixedOrder.take 15 ++ [Entry.crossCheckValidating] := rfl
  obtain ⟨s1, out1, hw1, hw⟩ :=
    walk_split c h (fixedOrder.take 15) [Entry.crossCheckValidating] c.coreSolver []
  obtain ⟨ds, hb1, hb2⟩ :=
    walk_forall2 c (Entry.Describes c) (fixedOrder.take 15)
      (fun e _ s d _ hd => effect_describes c e s d hd) c.coreSolver [] s1 (by rw [hw1])
  refine ⟨ds, hb2, fun hsel => ?_, fun hsel => ?_⟩
  · rw [walk_cons_some c .crossCheckValidating _ s1 out1
      (.Validating (c.env.createCoreSolver c.cl.DebugCrossCheckCoreSolverWith)) []
      (by simpa [Entry.enabled] using hsel) rfl] at hw
    rw [result_eq_walk, hsplit, hw, walk_nil, hb1]
    rfl
  · rw [walk_cons_disabled c .crossCheckValidating _ s1 out1
      (by simp [Entry.enabled, hsel])] at hw
    rw [result_eq_walk, hsplit, hw, walk_nil, hb1]

/-- C6 at two sample calls: one with the selector set, one with `NO_SOLVER`. -/
theorem C6_cross_check_outermost_witness :
    smt2Env.ReportsExtension ∧
    crossCheckCall.cl.DebugCrossCheckCoreSolverWith ≠ NO_SOLVER ∧
    crossCheckCall.result.1 =
      some (createValidatingSolver
        (createSMTLIBLoggingSolver (createIndependentSolver (Solver.core 0)) "all.smt2" 0)
        (some (Solver.core 1))) ∧
    (∃ ds : List Decorator,
      List.Forall₂ (Entry.Describes crossCheckCall)
        ((fixedOrder.take 15).filter (Entry.enabled crossCheckCall.cl)) ds ∧
      (crossCheckCall.cl.DebugCrossCheckCoreSolverWith ≠ NO_SOLVER →
        crossCheckCall.result.1 = some (createValidatingSolver
          (wrapAll crossCheckCall.coreSolver ds)
          (crossCheckCall.env.createCoreSolver crossCheckCall.cl.DebugCrossCheckCoreSolverWith))) ∧
      (crossCheckCall.cl.DebugCrossCheckCoreSolverWith = NO_SOLVER →
        crossCheckCall.result.1 = some (wrapAll crossCheckCall.coreSolver ds))) ∧
    debugCall.cl.DebugCrossCheckCoreSolverWith = NO_SOLVER :=
  ⟨smt2Env_reportsExtension, by decide, by rw [result_eq_walk]; rfl,
    C6_cross_check_outermost crossCheckCall smt2Env_reportsExtension, rfl⟩

/-- C7. Let the probed solvers report an extension.  When the core solver is not Z3, the
builder returns a chain (it does not fail); every enabled array-ackermannization entry
has its native-dialect logger in the chain, created with no dialect configuration and
with the path the prober gives for no dialect configuration; and the warnings printed are
the ackermannization warning once for each array-ackermannization toggle set.  When the
core solver is Z3, or no array-ackermannization toggle is set, a chain is returned and no
warning is printed. -/
theorem C7_ackermannize_degrades_with_warning (c : Call) (h : c.env.ReportsExtension) :
    (c.cl.CoreSolverToUse ≠ Z3_SOLVER →
      ∃ ds : List Decorator,
        c.result.1 = some (wrapAll c.coreSolver ds) ∧
        List.Forall₂ (Entry.Degraded c) (fixedOrder.filter (Entry.enabled c.cl)) ds ∧
        warnings c.result.2 =
          List.replicate
            (ackermannizeToggles.filter (optionIsSet c.cl.queryLoggingOptions)).length
            ackermannizeWarning) ∧
    ((c.cl.CoreSolverToUse = Z3_SOLVER ∨
        ackermannizeToggles.filter (optionIsSet c.cl.queryLoggingOptions) = []) →
      (∃ chain, c.result.1 = some chain) ∧ warnings c.result.2 = []) := by
  refine ⟨fun hz => ?_, fun hno => ⟨?_, ?_⟩⟩
  · obtain ⟨ds, h1, h2⟩ := result_forall2 c h (Entry.Degraded c)
      (fun e s d _ hd => effect_degraded c hz e s d hd)
    refine ⟨ds, h1, h2, ?_⟩
    rw [result_warnings c h]
    simp only [Entry.warns, hz, if_false, ackermannizeToggles, List.filter_cons, List.filter_nil]
    cases optionIsSet c.cl.queryLoggingOptions SOLVER_CORE_SOLVER_LANG_AA <;>
      cases optionIsSet c.cl.queryLoggingOptions
        SOLVER_CORE_SOLVER_LANG_AA_NO_USE_FP_TO_IEEE_BV <;> rfl
  · rw [result_eq_walk]
    exact walk_isSome c h fixedOrder c.coreSolver []
  · rw [result_warnings c h]
    rcases hno with hz | hnone
    · simp [Entry.warns, hz]
    · simp only [ackermannizeToggles, List.filter_cons, List.filter_nil] at hnone
      cases h5 : optionIsSet c.cl.queryLoggingOptions SOLVER_CORE_SOLVER_LANG_AA <;>
        cases h6 : optionIsSet c.cl.queryLoggingOptions
          SOLVER_CORE_SOLVER_LANG_AA_NO_USE_FP_TO_IEEE_BV <;>
        simp [h5, h6] at hnone ⊢

/-- C7 at the sample call `ackermannizeCall` (a backend other than Z3, both
array-ackermannization toggles set) and, for the second part, at `threeLoggersCall` (Z3). -/
theorem C7_ackermannize_degrades_with_warning_witness :
    smt2Env.ReportsExtension ∧
    ackermannizeCall.cl.CoreSolverToUse ≠ Z3_SOLVER ∧
    ackermannizeCall.result =
      (some (createCoreSolverLangLoggingSolver
        (createCoreSolverLangLoggingSolver
          (createCoreSolverLangLoggingSolver (Solver.core 0) "q.smt2" 0 none)
          "qaa..smt2" 0 none)
        "qaa.no_fp_to_ieee_bv..smt2" 0 none),
       [Diag.message "Logging queries that reach solver in core solver's language to q.smt2\n",
        Diag.errs "Core solver is not Z3, cannot ackermannize arrays\n",
        Diag.message "Logging all (might be ackermannized) queries in core solver's language to qaa..smt2\n",
        Diag.errs "Core solver is not Z3, cannot ackermannize arrays\n",
        Diag.message "Logging all (might be ackermannized) queries avoiding use of fp.to_ieee_bv in core solver's language to qaa.no_fp_to_ieee_bv..smt2\n"]) ∧
    warnings ackermannizeCall.result.2 = List.replicate 2 ackermannizeWarning ∧
    threeLoggersCall.cl.CoreSolverToUse = Z3_SOLVER ∧
    warnings threeLoggersCall.result.2 = [] := by
  have h1 := (C7_ackermannize_degrades_with_warning ackermannizeCall smt2Env_reportsExtension).1
    (by decide)
  have h2 := (C7_ackermannize_degrades_with_warning threeLoggersCall smt2Env_reportsExtension).2
    (Or.inl rfl)
  obtain ⟨_, _, _, h3⟩ := h1
  refine ⟨smt2Env_reportsExtension, by decide, ?_, h3, rfl, h2.2⟩
  rw [result_eq_walk]
  rfl

/-- C8. When the probed solvers report an extension, the chain returned holds, for every
enabled native-dialect entry, a native-dialect logger with the extension prefix and
dialect configuration specified for it: none and (false, true) for the default
base-scoped logger, `"no_fp_to_ieee_bv."` and (false, false), `"aa."` and (true, true),
`"aa.no_fp_to_ieee_bv."` and (true, false) for the three others, none and (false, true)
for the full logger; the flags are (ackermannizeArrays, useToIEEEBVFunction).  In every
case the configuration reaches the prober and the logger only when the core solver is
Z3, and is absent for any other core solver. -/
theorem C8_native_loggers_as_specified (c : Call) (h : c.env.ReportsExtension) :
    ∃ ds : List Decorator,
      c.result.1 = some (wrapAll c.coreSolver ds) ∧
      List.Forall₂ (Entry.AsSpecified c) (fixedOrder.filter (Entry.enabled c.cl)) ds :=
  result_forall2 c h (Entry.AsSpecified c) (fun e s d _ hd => effect_asSpecified c e s d hd)

/-- C8 at the sample calls `threeLoggersCall` (Z3) and `ackermannizeCall` (another
backend). -/
theorem C8_native_loggers_as_specified_witness :
    smt2Env.ReportsExtension ∧
    threeLoggersCall.result.1 =
      some (createCoreSolverLangLoggingSolver
        (createCoreSolverLangLoggingSolver
          (createSMTLIBLoggingSolver (Solver.core 0) "base.smt2" 0)
          "qaa..smt2" 0 (some ⟨true, true⟩))
        "all..smt2" 0 (some ⟨false, true⟩)) ∧
    (∃ ds : List Decorator,
      threeLoggersCall.result.1 = some (wrapAll threeLoggersCall.coreSolver ds) ∧
      List.Forall₂ (Entry.AsSpecified threeLoggersCall)
        (fixedOrder.filter (Entry.enabled threeLoggersCall.cl)) ds) ∧
    (∃ ds : List Decorator,
      ackermannizeCall.result.1 = some (wrapAll ackermannizeCall.coreSolver ds) ∧
      List.Forall₂ (Entry.AsSpecified ackermannizeCall)
        (fixedOrder.filter (Entry.enabled ackermannizeCall.cl)) ds) :=
  ⟨smt2Env_reportsExtension, by rw [result_eq_walk]; rfl,
    C8_native_loggers_as_specified threeLoggersCall smt2Env_reportsExtension,
    C8_native_loggers_as_specified ackermannizeCall smt2Env_reportsExtension⟩

/-- C9, as the code has it.  Whenever the builder returns a chain, the notices it printed
are, in order, one for each logging decorator of that chain, and each names the file
path that logger was created with the way `%s` prints it: the path up to its first NUL
character, which is the exact path whenever the path holds no NUL character.  The
decorators that are no loggers (assignment validation, fast counter-example heuristic,
both caches, independence splitting, debug cross-validation, cross-checking) print no
notice.  A chain is returned whenever the probed solvers report an extension. -/
theorem C9_one_notice_per_logger (c : Call) :
    (∀ chain, c.result.1 = some chain →
      ∃ ds : List Decorator,
        chain = wrapAll c.coreSolver ds ∧
        (notices c.result.2).length = (ds.filterMap Decorator.logPath).length ∧
        List.Forall₂ Names (ds.filterMap Decorator.logPath) (notices c.result.2)) ∧
    (c.env.ReportsExtension → ∃ chain, c.result.1 = some chain) ∧
    (∀ path : String, Char.ofNat 0 ∉ path.data → c_str path = path) := by
  refine ⟨fun chain hchain => ?_, fun h => ?_, c_str_of_no_nul⟩
  · rw [result_eq_walk] at hchain
    obtain ⟨steps, h1, h2, h3⟩ :=
      walk_steps c (fun _ d printed => List.Forall₂ Names (d.logPath).toList (notices printed))
        fixedOrder (fun e _ s d printed _ hd => effect_names c e s d printed hd) c.coreSolver []
        chain (walk c fixedOrder c.coreSolver []).2 (Prod.ext hchain rfl)
    have h4 := steps_names _ _ h3
    refine ⟨steps.map Prod.fst, h1, ?_, ?_⟩
    · rw [result_eq_walk, h2, List.nil_append]
      exact h4.length_eq.symm
    · rw [result_eq_walk, h2, List.nil_append]
      exact h4
  · rw [result_eq_walk]
    exact walk_isSome c h fixedOrder c.coreSolver []

/-- C9 at the sample calls `threeLoggersCall` and `nulPathCall`; in the second the logger
writes to a path with a NUL character in it and the notice stops before that character. -/
theorem C9_one_notice_per_logger_witness :
    smt2Env.ReportsExtension ∧
    threeLoggersCall.result.1 =
      some (createCoreSolverLangLoggingSolver
        (createCoreSolverLangLoggingSolver
          (createSMTLIBLoggingSolver (Solver.core 0) "base.smt2" 0)
          "qaa..smt2" 0 (some ⟨true, true⟩))
        "all..smt2" 0 (some ⟨false, true⟩)) ∧
    notices threeLoggersCall.result.2 =
      ["Logging queries that reach solver in .smt2 format to base.smt2\n",
       "Logging all (might be ackermannized) queries in core solver's language to qaa..smt2\n",
       "Logging all queries in core solver's language to all..smt2\n"] ∧
    (∃ ds : List Decorator,
      createCoreSolverLangLoggingSolver
        (createCoreSolverLangLoggingSolver
          (createSMTLIBLoggingSolver (Solver.core 0) "base.smt2" 0)
          "qaa..smt2" 0 (some ⟨true, true⟩))
        "all..smt2" 0 (some ⟨false, true⟩) = wrapAll threeLoggersCall.coreSolver ds ∧
      (notices threeLoggersCall.result.2).length = (ds.filterMap Decorator.logPath).length ∧
      List.Forall₂ Names (ds.filterMap Decorator.logPath) (notices threeLoggersCall.result.2)) ∧
    nulPathCall.result =
      (some (createKQueryLoggingSolver (Solver.core 0) "a\x00b" 0),
       [Diag.message "Logging queries that reach solver in .kquery format to a\n"]) ∧
    c_str "a\x00b" = "a" ∧
    c_str "base.smt2" = "base.smt2" := by
  have hres : threeLoggersCall.result.1 =
      some (createCoreSolverLangLoggingSolver
        (createCoreSolverLangLoggingSolver
          (createSMTLIBLoggingSolver (Solver.core 0) "base.smt2" 0)
          "qaa..smt2" 0 (some ⟨true, true⟩))
        "all..smt2" 0 (some ⟨false, true⟩)) := by
    rw [result_eq_walk]; rfl
  exact ⟨smt2Env_reportsExtension, hres, by rw [result_eq_walk]; rfl,
    (C9_one_notice_per_logger threeLoggersCall).1 _ hres,
    by rw [result_eq_walk]; rfl, by decide,
    (C9_one_notice_per_logger threeLoggersCall).2.2 "base.smt2" (by decide)⟩

/-- C9 as stated fails.  At the sample call `cexCacheCall`, where counter-example caching
is the only toggle set, the builder inserts one decorator and prints no notice. -/
theorem C9_silent_decorator_counterexample :
    cexCacheCall.result.1 = some (wrapAll (Solver.core 0) [Decorator.CexCaching]) ∧
    cexCacheCall.result.1 = some (createCexCachingSolver (Solver.core 0)) ∧
    notices cexCacheCall.result.2 = [] ∧
    (notices cexCacheCall.result.2).length ≠ [Decorator.CexCaching].length := by
  have hres : cexCacheCall.result = (some (createCexCachingSolver (Solver.core 0)), []) := by
    rw [result_eq_walk]; rfl
  rw [hres]
  exact ⟨rfl, rfl, rfl, by decide⟩

/-- C10, as the code has it.  Say the builder has run the stages of the entries `before`
to their end, from the base solver, reaching the working solver `s` with the diagnostics
`out` printed, and the prober is defeated at the next entry `e`, an enabled
native-dialect logger, on `s`.  Then the builder returns no solver, neither whole nor in
part, and prints nothing about it: the diagnostics are `out` and the warning `e` prints
before it probes, if any, and no line tells which stage was defeated.  The builder
returns no solver in that case alone; so it returns a solver whenever no probe it makes
is defeated, and a chain it returns is whole, the base solver under one decorator for
every enabled entry. -/
theorem C10_defeated_prober_returns_no_solver (c : Call) :
    (∀ (before : List Entry) (e : Entry) (after : List Entry) (s : Solver) (out : List Diag),
      fixedOrder = before ++ e :: after → e.enabled c.cl = true →
      walk c before c.coreSolver [] = (some s, out) → e.Defeated c s →
      c.result = (none, out ++ (e.warns c).map Diag.errs)) ∧
    (c.result.1 = none →
      ∃ (before : List Entry) (e : Entry) (after : List Entry) (s : Solver) (out : List Diag),
        fixedOrder = before ++ e :: after ∧ e.enabled c.cl = true ∧
        walk c before c.coreSolver [] = (some s, out) ∧ e.Defeated c s) ∧
    ((∀ (before : List Entry) (e : Entry) (after : List Entry) (s : Solver) (out : List Diag),
      fixedOrder = before ++ e :: after → e.enabled c.cl = true →
      walk c before c.coreSolver [] = (some s, out) → ¬ e.Defeated c s) →
      ∃ chain, c.result.1 = some chain) ∧
    (∀ chain, c.result.1 = some chain →
      ∃ ds : List Decorator,
        chain = wrapAll c.coreSolver ds ∧
        ds.length = (fixedOrder.filter (Entry.enabled c.cl)).length) := by
  have hnone : c.result.1 = none →
      ∃ (before : List Entry) (e : Entry) (after : List Entry) (s : Solver) (out : List Diag),
        fixedOrder = before ++ e :: after ∧ e.enabled c.cl = true ∧
        walk c before c.coreSolver [] = (some s, out) ∧ e.Defeated c s := by
    intro h
    rw [result_eq_walk] at h
    obtain ⟨before, e, after, s, out, h1, h2, h3, h4⟩ := walk_none c fixedOrder c.coreSolver [] h
    exact ⟨before, e, after, s, out, h1, h2, h3, (effect_none_iff_defeated c e s).mp h4⟩
  refine ⟨fun before e after s out hsplit he hw hdef => ?_, hnone, fun hall => ?_,
    fun chain hchain => ?_⟩
  · rw [result_eq_walk, hsplit, walk_append, hw]
    exact walk_cons_none c e after s out _ he (effect_of_defeated c e s hdef)
  · cases hres : c.result.1 with
    | some chain => exact ⟨chain, rfl⟩
    | none =>
      obtain ⟨before, e, after, s, out, h1, h2, h3, h4⟩ := hnone hres
      exact absurd h4 (hall before e after s out h1 h2 h3)
  · rw [result_eq_walk] at hchain
    obtain ⟨ds, h1, h2⟩ :=
      walk_forall2 c (fun _ _ => True) fixedOrder (fun _ _ _ _ _ _ => True.intro)
        c.coreSolver [] chain hchain
    exact ⟨ds, h1, h2.length_eq.symm⟩

/-- C10 at sample calls on solvers that report no extension.  In `smtlibThenAANullCall`
the SMT-LIB logger stage runs to its end and the prober is defeated at the `aa` logger:
no solver is returned, and the diagnostics are the notice of the SMT-LIB logger and the
ackermannization warning.  In `kqueryNullCall` no probe is made and the chain is
returned. -/
theorem C10_defeated_prober_returns_no_solver_witness :
    fixedOrder = [Entry.baseKQueryLogger, Entry.baseSMTLIBLogger, Entry.baseNativeLogger,
        Entry.baseNativeLoggerNoFpToIeeeBv] ++ Entry.baseNativeLoggerAA :: fixedOrder.drop 5 ∧
    Entry.enabled smtlibThenAANullCall.cl Entry.baseNativeLoggerAA = true ∧
    Entry.Defeated smtlibThenAANullCall Entry.baseNativeLoggerAA
      (createSMTLIBLoggingSolver (Solver.core 0) "base.smt2" 0) ∧
    smtlibThenAANullCall.result =
      (none,
       [Diag.message "Logging queries that reach solver in .smt2 format to base.smt2\n",
        Diag.errs "Core solver is not Z3, cannot ackermannize arrays\n"]) ∧
    (∃ chain, kqueryNullCall.result.1 = some chain) ∧
    kqueryNullCall.result.1 = some (createKQueryLoggingSolver (Solver.core 0) "base.kquery" 0) := by
  have hdef : Entry.Defeated smtlibThenAANullCall Entry.baseNativeLoggerAA
      (createSMTLIBLoggingSolver (Solver.core 0) "base.smt2" 0) := rfl
  have h1 := (C10_defeated_prober_returns_no_solver smtlibThenAANullCall).1
    [Entry.baseKQueryLogger, Entry.baseSMTLIBLogger, Entry.baseNativeLogger,
      Entry.baseNativeLoggerNoFpToIeeeBv] Entry.baseNativeLoggerAA (fixedOrder.drop 5)
    (createSMTLIBLoggingSolver (Solver.core 0) "base.smt2" 0)
    [Diag.message "Logging queries that reach solver in .smt2 format to base.smt2\n"]
    rfl rfl rfl hdef
  have h2 := (C10_defeated_prober_returns_no_solver kqueryNullCall).2.2.1 (by
    intro before e after s out _ he _ hd
    cases e <;> first | exact hd | (revert he; decide))
  exact ⟨rfl, rfl, hdef, h1, h2, by rw [result_eq_walk]; rfl⟩

/-- C10 as stated fails.  The solvers of `nullEnv` report no extension.  The sample call
`baseNativeNullCall` enables the base-scoped native-dialect logger alone and
`fullNativeNullCall` the full native-dialect logger alone, so the prober is defeated at
different logging stages; the two outcomes are the same, no solver and no diagnostic
line, and nothing in them tells one stage from the other. -/
theorem C10_failed_stage_not_identified_counterexample :
    (∀ s clc, (nullEnv.getConstraintLog s dummyQuery clc).2 = none) ∧
    fixedOrder.filter (Entry.enabled baseNativeNullCall.cl) = [Entry.baseNativeLogger] ∧
    fixedOrder.filter (Entry.enabled fullNativeNullCall.cl) = [Entry.fullNativeLogger] ∧
    baseNativeNullCall.result = (none, []) ∧
    fullNativeNullCall.result = (none, []) ∧
    baseNativeNullCall.result = fullNativeNullCall.result := by
  have h1 : baseNativeNullCall.result = (none, []) := by rw [result_eq_walk]; rfl
  have h2 : fullNativeNullCall.result = (none, []) := by rw [result_eq_walk]; rfl
  exact ⟨fun _ _ => rfl, by decide, by decide, h1, h2, by rw [h1, h2]⟩

/-- C11, as the code has it.  The builder does not look at what `createCoreSolver` yields.
When the alternate-backend selector is set and the probed solvers report an extension,
it returns the whole chain with the cross-checking decorator outermost, and the oracle
of that decorator is whatever `createCoreSolver` yields for the selector: a solver when
it yields one, and missing when it yields none. -/
theorem C11_cross_check_oracle_unchecked (c : Call) (h : c.env.ReportsExtension)
    (hsel : c.cl.DebugCrossCheckCoreSolverWith ≠ NO_SOLVER) :
    ∃ ds : List Decorator,
      List.Forall₂ (Entry.Describes c) ((fixedOrder.take 15).filter (Entry.enabled c.cl)) ds ∧
      (∀ oracle, c.env.createCoreSolver c.cl.DebugCrossCheckCoreSolverWith = some oracle →
        c.result.1 = some (createValidatingSolver (wrapAll c.coreSolver ds) (some oracle))) ∧
      (c.env.createCoreSolver c.cl.DebugCrossCheckCoreSolverWith = none →
        c.result.1 = some (createValidatingSolver (wrapAll c.coreSolver ds) none)) := by
  obtain ⟨ds, h1, h2⟩ := result_cross_checked c h hsel
  exact ⟨ds, h1, fun oracle ho => by rw [h2, ho], fun ho => by rw [h2, ho]⟩

/-- C11 at the sample calls `crossCheckCall`, whose factory builds a solver, and
`noOracleCall`, whose factory builds none. -/
theorem C11_cross_check_oracle_unchecked_witness :
    smt2Env.ReportsExtension ∧
    crossCheckCall.cl.DebugCrossCheckCoreSolverWith ≠ NO_SOLVER ∧
    crossCheckCall.env.createCoreSolver crossCheckCall.cl.DebugCrossCheckCoreSolverWith
      = some (Solver.core 1) ∧
    (∃ ds : List Decorator,
      List.Forall₂ (Entry.Describes crossCheckCall)
        ((fixedOrder.take 15).filter (Entry.enabled crossCheckCall.cl)) ds ∧
      crossCheckCall.result.1 =
        some (createValidatingSolver (wrapAll crossCheckCall.coreSolver ds)
          (some (Solver.core 1)))) ∧
    noOracleEnv.ReportsExtension ∧
    noOracleCall.cl.DebugCrossCheckCoreSolverWith ≠ NO_SOLVER ∧
    noOracleCall.env.createCoreSolver noOracleCall.cl.DebugCrossCheckCoreSolverWith = none ∧
    (∃ ds : List Decorator,
      List.Forall₂ (Entry.Describes noOracleCall)
        ((fixedOrder.take 15).filter (Entry.enabled noOracleCall.cl)) ds ∧
      noOracleCall.result.1 =
        some (createValidatingSolver (wrapAll noOracleCall.coreSolver ds) none)) := by
  obtain ⟨ds1, h1, h2, _⟩ :=
    C11_cross_check_oracle_unchecked crossCheckCall smt2Env_reportsExtension (by decide)
  obtain ⟨ds2, h3, _, h4⟩ :=
    C11_cross_check_oracle_unchecked noOracleCall noOracleEnv_reportsExtension (by decide)
  exact ⟨smt2Env_reportsExtension, by decide, rfl, ⟨ds1, h1, h2 _ rfl⟩,
    noOracleEnv_reportsExtension, by decide, rfl, ⟨ds2, h3, h4 rfl⟩⟩

/-- C11 as stated fails.  At the sample call `noOracleCall` the selector names a backend
for which `createCoreSolver` yields no solver; the builder returns a chain all the same,
the base solver under a validating decorator whose oracle is missing. -/
theorem C11_missing_oracle_counterexample :
    noOracleCall.cl.DebugCrossCheckCoreSolverWith ≠ NO_SOLVER ∧
    noOracleCall.env.createCoreSolver noOracleCall.cl.DebugCrossCheckCoreSolverWith = none ∧
    noOracleCall.result = (some (createValidatingSolver (Solver.core 0) none), []) ∧
    noOracleCall.result.1 ≠ none := by
  have hres : noOracleCall.result = (some (createValidatingSolver (Solver.core 0) none), []) := by
    rw [result_eq_walk]; rfl
  refine ⟨by decide, rfl, hres, ?_⟩
  rw [hres]
  exact fun h => Option.noConfusion h

/-- C12, as the code has it.  The query `getSolverPath` builds to learn the extension has
an empty constraint set and the boolean constant false (value 0, width one bit) as its
expression, and the path returned is made from the extension the solver reports for
exactly that query. -/
theorem C12_probe_query_is_constant_false :
    dummyQuery.constraints.constraints = [] ∧
    dummyQuery.expr = Expr.ConstantExpr 0 Expr.Bool ∧
    isFalse dummyQuery.expr = true ∧
    isTrue dummyQuery.expr = false ∧
    ∀ (env : Env) (solver : Solver) (base : String) (clc : Option Z3ConstraintLogConfig)
      (extensionPrefix : Option String),
      getSolverPath env solver base clc extensionPrefix =
        ((env.getConstraintLog solver
            { constraints := { constraints := [] }, expr := Expr.ConstantExpr 0 Expr.Bool }
            clc).2).map
          (fun ext => pathStem base extensionPrefix ++ ext) :=
  ⟨rfl, rfl, rfl, rfl, fun env solver base clc pre => getSolverPath_eq env solver base clc pre⟩

/-- C12 as stated fails.  The query built is not the trivially true query: on solvers that
report an extension for the trivially true query alone, `getSolverPath` learns none. -/
theorem C12_probe_query_not_true_counterexample :
    trueQuery.constraints.constraints = [] ∧
    isTrue trueQuery.expr = true ∧
    dummyQuery ≠ trueQuery ∧
    isTrue dummyQuery.expr = false ∧
    (trueQueryOnlyEnv.getConstraintLog (Solver.core 0) trueQuery none).2 = some ".smt2" ∧
    getSolverPath trueQueryOnlyEnv (Solver.core 0) "q" none none = none :=
  ⟨rfl, rfl, by decide, rfl, by decide, by decide⟩

/-- C13. When the probed solvers report an extension, the chain returned puts the enabled
ones among the counter-example cache, the general cache and independence splitting in
that order from the base solver outwards, between the decorators of the entries listed
before them and those of the entries listed after them.  So a cache that is enabled
together with independence splitting is nested inside the independence-splitting
decorator, and the counter-example cache is nested inside the general cache when both
are enabled.  And with counter-example caching as the only toggle set the chain is not
the chain built with general caching as the only toggle set. -/
theorem C13_caches_inside_independence (c : Call) :
    (c.env.ReportsExtension →
      ∃ ds : List Decorator,
        c.result.1 = some (wrapAll c.coreSolver ds) ∧
        (∃ inner outer : List Decorator,
          ds = inner ++ (cacheLayers c.cl ++ outer) ∧
          List.Forall₂ (Entry.Describes c)
            ((fixedOrder.take 8).filter (Entry.enabled c.cl)) inner ∧
          List.Forall₂ (Entry.Describes c)
            ((fixedOrder.drop 11).filter (Entry.enabled c.cl)) outer) ∧
        (c.cl.UseIndependentSolver = true → c.cl.UseCexCache = true →
          NestedInside .CexCaching .Independent ds) ∧
        (c.cl.UseIndependentSolver = true → c.cl.UseCache = true →
          NestedInside .Caching .Independent ds) ∧
        (c.cl.UseCexCache = true → c.cl.UseCache = true →
          NestedInside .CexCaching .Caching ds)) ∧
    ({ c with cl := onlyCaches true false c.cl }).result.1 =
      some (createCexCachingSolver c.coreSolver) ∧
    ({ c with cl := onlyCaches false true c.cl }).result.1 =
      some (createCachingSolver c.coreSolver) ∧
    ({ c with cl := onlyCaches true false c.cl }).result.1 ≠
      ({ c with cl := onlyCaches false true c.cl }).result.1 := by
  have hcex : ({ c with cl := onlyCaches true false c.cl }).result.1 =
      some (createCexCachingSolver c.coreSolver) := by
    rw [result_eq_walk]; rfl
  have hcache : ({ c with cl := onlyCaches false true c.cl }).result.1 =
      some (createCachingSolver c.coreSolver) := by
    rw [result_eq_walk]; rfl
  refine ⟨fun h => ?_, hcex, hcache, ?_⟩
  · obtain ⟨inner, outer, h1, h2, h3⟩ := result_cacheLayers c h
    refine ⟨_, h1, ⟨inner, outer, rfl, h2, h3⟩, fun hi hc => ?_, fun hi hc => ?_,
      fun hc hg => ?_⟩
    · exact ⟨inner, if c.cl.UseCache = true then [Decorator.Caching] else [], outer, by
        simp [cacheLayers, hi, hc]⟩
    · exact ⟨inner ++ (if c.cl.UseCexCache = true then [Decorator.CexCaching] else []), [],
        outer, by simp [cacheLayers, hi, hc]⟩
    · exact ⟨inner, [],
        (if c.cl.UseIndependentSolver = true then [Decorator.Independent] else []) ++ outer, by
        simp [cacheLayers, hc, hg]⟩
  · rw [hcex, hcache]
    intro heq
    injection heq with heq
    exact Solver.noConfusion heq

/-- C13 at the sample call `cachesCall`. -/
theorem C13_caches_inside_independence_witness :
    smt2Env.ReportsExtension ∧
    cachesCall.cl.UseIndependentSolver = true ∧ cachesCall.cl.UseCexCache = true ∧
    cachesCall.cl.UseCache = true ∧
    cachesCall.result.1 =
      some (createIndependentSolver (createCachingSolver (createCexCachingSolver
        (createSMTLIBLoggingSolver (Solver.core 0) "base.smt2" 0)))) ∧
    ∃ ds : List Decorator,
      cachesCall.result.1 = some (wrapAll cachesCall.coreSolver ds) ∧
      NestedInside .CexCaching .Independent ds ∧
      NestedInside .Caching .Independent ds ∧
      NestedInside .CexCaching .Caching ds := by
  obtain ⟨ds, h1, _, h2, h3, h4⟩ :=
    (C13_caches_inside_independence cachesCall).1 smt2Env_reportsExtension
  exact ⟨smt2Env_reportsExtension, rfl, rfl, rfl, by rw [result_eq_walk]; rfl,
    ds, h1, h2 rfl rfl, h3 rfl rfl, h4 rfl rfl⟩

/-- C14. When the probed solvers report an extension, the decorators of the chain returned
are inserted stepwise from the base solver, and every native-dialect logger among them
has the file path the prober gives for the very solver the logger wraps (the working
solver at its turn, under every decorator inserted before) and for the very dialect
configuration the logger is created with.  When the full native-dialect logger is
enabled, the solver it probes and wraps is the base solver under the decorators of all
the enabled entries listed before it, the full KQuery and SMT-LIB loggers among them. -/
theorem C14_prober_probes_the_wrapped_solver (c : Call) (h : c.env.ReportsExtension) :
    (∃ ds : List Decorator,
      c.result.1 = some (wrapAll c.coreSolver ds) ∧
      Stepwise (Entry.ProbesWrapped c) c.coreSolver (fixedOrder.filter (Entry.enabled c.cl)) ds) ∧
    (optionIsSet c.cl.queryLoggingOptions ALL_CORE_SOLVER_LANG = true →
      ∃ (before after : List Decorator) (p : String) (clc : Option Z3ConstraintLogConfig),
        c.result.1 = some (wrapAll
          (createCoreSolverLangLoggingSolver (wrapAll c.coreSolver before) p
            c.cl.MinQueryTimeToLog clc) after) ∧
        getSolverPath c.env (wrapAll c.coreSolver before) c.queryCoreSolverLangLogPath clc none
          = some p ∧
        List.Forall₂ (Entry.Describes c)
          ((fixedOrder.take 14).filter (Entry.enabled c.cl)) before ∧
        List.Forall₂ (Entry.Describes c)
          ((fixedOrder.drop 15).filter (Entry.enabled c.cl)) after) := by
  refine ⟨?_, fun hfull => ?_⟩
  · obtain ⟨chain, hchain⟩ := walk_isSome c h fixedOrder c.coreSolver []
    obtain ⟨ds, h1, h2⟩ :=
      walk_stepwise c (Entry.ProbesWrapped c)
        (fun e s d _ hd => effect_probesWrapped c e s d hd) fixedOrder c.coreSolver [] chain
        hchain
    exact ⟨ds, by rw [result_eq_walk, hchain, h1], h2⟩
  · have hsplit : fixedOrder =
        fixedOrder.take 14 ++ (Entry.fullNativeLogger :: fixedOrder.drop 15) := rfl
    obtain ⟨s1, out1, hw1, hw⟩ :=
      walk_split c h (fixedOrder.take 14) (Entry.fullNativeLogger :: fixedOrder.drop 15)
        c.coreSolver []
    obtain ⟨before, hb1, hb2⟩ :=
      walk_forall2 c (Entry.Describes c) (fixedOrder.take 14)
        (fun e _ s d _ hd => effect_describes c e s d hd) c.coreSolver [] s1 (by rw [hw1])
    obtain ⟨d, printed, hd⟩ := effect_isSome c h .fullNativeLogger s1
    obtain ⟨p, hp, rfl⟩ :=
      effect_native_some c .fullNativeLogger _ s1 _ rfl (by rw [hd])
    rw [walk_cons_some c .fullNativeLogger _ s1 out1 _ printed
      (by simpa [Entry.enabled] using hfull) hd] at hw
    obtain ⟨chain, hchain⟩ := walk_isSome c h (fixedOrder.drop 15)
      ((Decorator.CoreSolverLangLogging p c.cl.MinQueryTimeToLog
        (clcFor c.cl ⟨false, true⟩)).wrap s1) (out1 ++ printed)
    obtain ⟨after, ha1, ha2⟩ :=
      walk_forall2 c (Entry.Describes c) (fixedOrder.drop 15)
        (fun e _ s d _ hd => effect_describes c e s d hd) _ _ chain hchain
    refine ⟨before, after, p, clcFor c.cl ⟨false, true⟩, ?_, ?_, hb2, ha2⟩
    · rw [result_eq_walk, hsplit, hw]
      exact hchain.trans (by rw [ha1, hb1]; rfl)
    · rw [← hb1]; exact hp

/-- C14 at the sample call `depthCall`, whose solvers report how deep the base solver lies
under the solver probed: the base-scoped logger probes the base solver itself (`.0`), the
full logger probes the chain with the full KQuery logger already around it (`.n`). -/
theorem C14_prober_probes_the_wrapped_solver_witness :
    depthEnv.ReportsExtension ∧
    optionIsSet depthCall.cl.queryLoggingOptions ALL_CORE_SOLVER_LANG = true ∧
    depthCall.result.1 =
      some (createCoreSolverLangLoggingSolver
        (createKQueryLoggingSolver
          (createCoreSolverLangLoggingSolver (Solver.core 0) "q.0" 0 (some ⟨false, true⟩))
          "all.kquery" 0)
        "all..n" 0 (some ⟨false, true⟩)) ∧
    (∃ ds : List Decorator,
      depthCall.result.1 = some (wrapAll depthCall.coreSolver ds) ∧
      Stepwise (Entry.ProbesWrapped depthCall) depthCall.coreSolver
        (fixedOrder.filter (Entry.enabled depthCall.cl)) ds) ∧
    ∃ (before after : List Decorator) (p : String) (clc : Option Z3ConstraintLogConfig),
      depthCall.result.1 = some (wrapAll
        (createCoreSolverLangLoggingSolver (wrapAll depthCall.coreSolver before) p
          depthCall.cl.MinQueryTimeToLog clc) after) ∧
      getSolverPath depthCall.env (wrapAll depthCall.coreSolver before)
        depthCall.queryCoreSolverLangLogPath clc none = some p ∧
      List.Forall₂ (Entry.Describes depthCall)
        ((fixedOrder.take 14).filter (Entry.enabled depthCall.cl)) before ∧
      List.Forall₂ (Entry.Describes depthCall)
        ((fixedOrder.drop 15).filter (Entry.enabled depthCall.cl)) after :=
  ⟨depthEnv_reportsExtension, by decide, by rw [result_eq_walk]; rfl,
    (C14_prober_probes_the_wrapped_solver depthCall depthEnv_reportsExtension).1,
    (C14_prober_probes_the_wrapped_solver depthCall depthEnv_reportsExtension).2 (by decide)⟩

/-- C15. `getSolverPath` leaves the `base` it receives by reference as it was, and the
path it returns is fixed by the solver, `base`, the dialect configuration, the extension
prefix and the extension the solver reports: two calls that differ in nothing but the
collaborator return the same path whenever the same extension is reported.  So within
one run of `constructSolverChain` it makes no difference that the path variables are
handed over by reference, and the file of every base-scoped native-dialect logger is the
base path input of the call, as the caller gave it, followed by the extension prefix of
that logger alone and the extension, whatever other native-dialect toggles are set. -/
theorem C15_getSolverPath_leaves_base_untouched (c : Call) :
    (∀ (env : Env) (solver : Solver) (base : String) (clc : Option Z3ConstraintLogConfig)
        (extensionPrefix : Option String),
      getSolverPathRef env solver base clc extensionPrefix =
        (getSolverPath env solver base clc extensionPrefix).map (fun p => (p, base))) ∧
    (∀ (env1 env2 : Env) (solver : Solver) (base : String)
        (clc : Option Z3ConstraintLogConfig) (extensionPrefix : Option String),
      (env1.getConstraintLog solver dummyQuery clc).2 =
        (env2.getConstraintLog solver dummyQuery clc).2 →
      getSolverPath env1 solver base clc extensionPrefix =
        getSolverPath env2 solver base clc extensionPrefix) ∧
    (constructSolverChainRef c.cl c.env c.coreSolver c.querySMT2LogPath
        c.baseSolverQuerySMT2LogPath c.queryKQueryLogPath c.baseSolverQueryKQueryLogPath
        c.queryCoreSolverLangLogPath c.baseCoreSolverLangLogPath).run [] = c.result ∧
    (c.env.ReportsExtension →
      ∃ ds : List Decorator,
        c.result.1 = some (wrapAll c.coreSolver ds) ∧
        List.Forall₂ (Entry.BuiltOnBaseInput c) (fixedOrder.filter (Entry.enabled c.cl)) ds) := by
  refine ⟨getSolverPathRef_eq, fun env1 env2 solver base clc pre hsame => ?_, ?_, fun h => ?_⟩
  · simp only [getSolverPath, hsame]
  · rw [constructSolverChainRef_eq]; rfl
  · exact result_forall2 c h (Entry.BuiltOnBaseInput c)
      (fun e s d _ hd => effect_builtOnBaseInput c e s d hd)

/-- C15 at the sample call `fourNativeCall`, with the four base-scoped native-dialect
loggers set: each file path starts afresh from the path input `"q"`. -/
theorem C15_getSolverPath_leaves_base_untouched_witness :
    smt2Env.ReportsExtension ∧
    getSolverPathRef smt2Env (Solver.core 0) "q" none (some "aa.") = some ("qaa..smt2", "q") ∧
    fourNativeCall.result.1 =
      some (createCoreSolverLangLoggingSolver
        (createCoreSolverLangLoggingSolver
          (createCoreSolverLangLoggingSolver
            (createCoreSolverLangLoggingSolver (Solver.core 0)
              "q.smt2" 0 (some ⟨false, true⟩))
            "qno_fp_to_ieee_bv..smt2" 0 (some ⟨false, false⟩))
          "qaa..smt2" 0 (some ⟨true, true⟩))
        "qaa.no_fp_to_ieee_bv..smt2" 0 (some ⟨true, false⟩)) ∧
    ∃ ds : List Decorator,
      fourNativeCall.result.1 = some (wrapAll fourNativeCall.coreSolver ds) ∧
      List.Forall₂ (Entry.BuiltOnBaseInput fourNativeCall)
        (fixedOrder.filter (Entry.enabled fourNativeCall.cl)) ds :=
  ⟨smt2Env_reportsExtension, by decide, by rw [result_eq_walk]; rfl,
    (C15_getSolverPath_leaves_base_untouched fourNativeCall).2.2.2 smt2Env_reportsExtension⟩

/-- C16. For every base path and every extension, the four paths `getSolverPath` returns
for the extension prefixes of the base-scoped native-dialect loggers (none,
`"no_fp_to_ieee_bv."`, `"aa."`, `"aa.no_fp_to_ieee_bv."`), whatever solvers and dialect
configurations are probed as long as each reports that extension, are pairwise distinct:
no two of those loggers are given the same file. -/
theorem C16_base_native_paths_distinct (env : Env) (base ext : String)
    (s1 s2 s3 s4 : Solver) (clc1 clc2 clc3 clc4 : Option Z3ConstraintLogConfig)
    (h1 : (env.getConstraintLog s1 dummyQuery clc1).2 = some ext)
    (h2 : (env.getConstraintLog s2 dummyQuery clc2).2 = some ext)
    (h3 : (env.getConstraintLog s3 dummyQuery clc3).2 = some ext)
    (h4 : (env.getConstraintLog s4 dummyQuery clc4).2 = some ext) :
    ∃ p1 p2 p3 p4 : String,
      getSolverPath env s1 base clc1 none = some p1 ∧
      getSolverPath env s2 base clc2 (some "no_fp_to_ieee_bv.") = some p2 ∧
      getSolverPath env s3 base clc3 (some "aa.") = some p3 ∧
      getSolverPath env s4 base clc4 (some "aa.no_fp_to_ieee_bv.") = some p4 ∧
      List.Pairwise (fun p q => p ≠ q) [p1, p2, p3, p4] := by
  have l2 : "no_fp_to_ieee_bv.".length = 17 := by decide
  have l3 : "aa.".length = 3 := by decide
  have l4 : "aa.no_fp_to_ieee_bv.".length = 20 := by decide
  refine ⟨base ++ ext, base ++ "no_fp_to_ieee_bv." ++ ext, base ++ "aa." ++ ext,
    base ++ "aa.no_fp_to_ieee_bv." ++ ext, ?_, ?_, ?_, ?_, ?_⟩
  · simp [getSolverPath, h1]
  · simp [getSolverPath, h2]
  · simp [getSolverPath, h3]
  · simp [getSolverPath, h4]
  · simp only [List.pairwise_cons, List.mem_cons, List.mem_singleton, List.not_mem_nil,
      forall_eq_or_imp, forall_eq, List.Pairwise.nil, and_true, false_imp_iff, implies_true]
    refine ⟨⟨?_, ?_, ?_⟩, ⟨?_, ?_⟩, ?_⟩ <;>
      (intro h
       have hl := congrArg String.length h
       simp only [String.length_append, l2, l3, l4] at hl
       omega)

/-- C16 at a sample input. -/
theorem C16_base_native_paths_distinct_witness :
    (smt2Env.getConstraintLog (Solver.core 0) dummyQuery none).2 = some ".smt2" ∧
    ∃ p1 p2 p3 p4 : String,
      getSolverPath smt2Env (Solver.core 0) "q" none none = some p1 ∧
      getSolverPath smt2Env (Solver.core 0) "q" none (some "no_fp_to_ieee_bv.") = some p2 ∧
      getSolverPath smt2Env (Solver.core 0) "q" none (some "aa.") = some p3 ∧
      getSolverPath smt2Env (Solver.core 0) "q" none (some "aa.no_fp_to_ieee_bv.") = some p4 ∧
      List.Pairwise (fun p q => p ≠ q) [p1, p2, p3, p4] :=
  ⟨rfl, C16_base_native_paths_distinct smt2Env "q" ".smt2" (Solver.core 0) (Solver.core 0)
    (Solver.core 0) (Solver.core 0) none none none none rfl rfl rfl rfl⟩

/-- C17. When every toggle is off (no logging option set, no assignment validation, fast
counter-example heuristic, cache, independence splitting or debug validation, and the
alternate-backend selector `NO_SOLVER`), `constructSolverChain` returns the base solver
it was given, with nothing around it, and prints neither notice nor warning. -/
theorem C17_all_off_returns_base (c : Call)
    (hlog : ∀ o, optionIsSet c.cl.queryLoggingOptions o = false)
    (hav : c.cl.UseAssignmentValidatingSolver = false)
    (hfast : c.cl.UseFastCexSolver = false)
    (hcex : c.cl.UseCexCache = false)
    (hcache : c.cl.UseCache = false)
    (hind : c.cl.UseIndependentSolver = false)
    (hdebug : c.cl.DebugValidateSolver = false)
    (hsel : c.cl.DebugCrossCheckCoreSolverWith = NO_SOLVER) :
    c.result = (some c.coreSolver, []) ∧
    notices c.result.2 = [] ∧ warnings c.result.2 = [] := by
  have hres : c.result = (some c.coreSolver, []) := by
    rw [result_eq_walk]
    apply walk_all_disabled
    intro e _
    cases e <;> simp [Entry.enabled, hlog, hav, hfast, hcex, hcache, hind, hdebug, hsel]
  rw [hres]
  exact ⟨rfl, rfl, rfl⟩

/-- C17 at the sample call with every toggle off, on solvers that report no extension. -/
theorem C17_all_off_returns_base_witness :
    (∀ o, optionIsSet (allOff Z3_SOLVER).queryLoggingOptions o = false) ∧
    (sampleCall (allOff Z3_SOLVER) nullEnv).result = (some (Solver.core 0), []) ∧
    notices (sampleCall (allOff Z3_SOLVER) nullEnv).result.2 = [] ∧
    warnings (sampleCall (allOff Z3_SOLVER) nullEnv).result.2 = [] :=
  ⟨fun _ => rfl,
    C17_all_off_returns_base (sampleCall (allOff Z3_SOLVER) nullEnv) (fun _ => rfl)
      rfl rfl rfl rfl rfl rfl rfl⟩

end klee
